import Mathlib

namespace ExpenseBot

set_option maxRecDepth 100000

/-!
Verification development for the ExpenseTrackerBot repository.

This file gives a shallow embedding, in Lean 4, of the parts of the
TypeScript sources that the verified properties talk about:

* `src/parser.ts` (the current variant, exporting `parseExpenseMessage`),
* `src/types.ts` (`Expense`, `ParseResult`, `EXPENSE_TYPES`),
* the approval layer and the callback-data encoding of `src/bot.ts`,
* the `SheetsService` class of `src/sheets.ts`, modelled as explicit state
  passing over a spreadsheet value, with backend failures injected through
  a `Faults` record.

JavaScript numbers are embedded as `JsNum` (an exact rational together
with the `NaN` and infinity values; IEEE rounding is not modelled, the
arithmetic used by the program is exact on its inputs), and `parseFloat`
is embedded following the ECMAScript `parseFloat` grammar (longest valid
prefix of the string; `NaN` when no prefix parses).
-/

/-! ## JavaScript numbers and `parseFloat` -/

/-- A JavaScript number as the program observes it: an exact rational,
one of the two infinities, or `NaN`. -/
inductive JsNum where
  | finite (q : ℚ)
  | posInf
  | negInf
  | nan
deriving DecidableEq

/-- JavaScript `x + y` on `JsNum` (used by `Array.prototype.reduce` when
summing amounts). -/
def jsAdd : JsNum → JsNum → JsNum
  | .nan, _ => .nan
  | _, .nan => .nan
  | .posInf, .negInf => .nan
  | .negInf, .posInf => .nan
  | .posInf, _ => .posInf
  | _, .posInf => .posInf
  | .negInf, _ => .negInf
  | _, .negInf => .negInf
  | .finite a, .finite b => .finite (a + b)

/-- JavaScript `isNaN(x)` for a `JsNum`. -/
def jsIsNaN : JsNum → Bool
  | .nan => true
  | _ => false

/-- JavaScript `x <= 0` for a `JsNum` (`NaN <= 0` is `false`). -/
def jsLeZero : JsNum → Bool
  | .finite q => decide (q ≤ 0)
  | .negInf => true
  | .posInf => false
  | .nan => false

/-- JavaScript `x || 0` applied to a number: `NaN` (and `0` itself) becomes
`0`, every other number is kept. -/
def jsOrZero : JsNum → JsNum
  | .nan => .finite 0
  | x => x

/-- The numeral denoted by a list of decimal digit characters (most
significant first). -/
def digitsToNat (ds : List Char) : ℕ :=
  ds.foldl (fun a c => 10 * a + (c.toNat - 48)) 0

/-- Splits a character list into its longest digit prefix and the rest. -/
def takeDigits (cs : List Char) : List Char × List Char :=
  (cs.takeWhile Char.isDigit, cs.dropWhile Char.isDigit)

/-- Scales a rational by `10 ^ e` for an integer exponent `e`. -/
def scalePow10 (q : ℚ) (e : ℤ) : ℚ :=
  if 0 ≤ e then q * (10 : ℚ) ^ e.toNat else q / (10 : ℚ) ^ (-e).toNat

/-- The optional sign of a decimal literal: the sign value and the
characters after it. -/
def signSplit (cs : List Char) : ℤ × List Char :=
  match cs with
  | c :: r => if c = '+' then (1, r) else if c = '-' then (-1, r) else (1, cs)
  | [] => (1, cs)

/-- The optional exponent part of a decimal literal: `e`/`E`, an optional
sign, then at least one digit.  `none` when the characters at hand do not
begin with a complete exponent part (the mantissa then ends the literal). -/
def expPart (cs : List Char) : Option (ℤ × List Char) :=
  match cs with
  | [] => none
  | c :: rest =>
    if c = 'e' ∨ c = 'E' then
      let signAndRest := signSplit rest
      let ds := (takeDigits signAndRest.2).1
      let rest3 := (takeDigits signAndRest.2).2
      if ds.isEmpty then none
      else some (signAndRest.1 * (digitsToNat ds : ℤ), rest3)
    else none

/-- Applies an optional exponent part to an already-parsed mantissa. -/
def applyExp (q : ℚ) (cs : List Char) : ℚ × List Char :=
  match expPart cs with
  | some (e, rest) => (scalePow10 q e, rest)
  | none => (q, cs)

/-- The unsigned decimal mantissa with optional fraction and exponent, as in
the ECMAScript `StrUnsignedDecimalLiteral` grammar (without `Infinity`).
Returns the parsed value and the unconsumed characters, or `none` when no
valid literal starts here. -/
def parseMantissa (cs : List Char) : Option (ℚ × List Char) :=
  let I := (takeDigits cs).1
  let r1 := (takeDigits cs).2
  if I.isEmpty then
    match r1 with
    | c :: r2 =>
      if c = '.' then
        let F := (takeDigits r2).1
        let r3 := (takeDigits r2).2
        if F.isEmpty then none
        else some (applyExp ((digitsToNat F : ℚ) / (10 : ℚ) ^ F.length) r3)
      else none
    | [] => none
  else
    match r1 with
    | c :: r2 =>
      if c = '.' then
        let F := (takeDigits r2).1
        let r3 := (takeDigits r2).2
        some (applyExp ((digitsToNat I : ℚ) + (digitsToNat F : ℚ) / (10 : ℚ) ^ F.length) r3)
      else some (applyExp (digitsToNat I : ℚ) r1)
    | [] => some (applyExp (digitsToNat I : ℚ) r1)

/-- A signed decimal literal (`StrDecimalLiteral`): optional sign, then
`Infinity` or a decimal mantissa.  Returns the value and the unconsumed
characters; `none` corresponds to `NaN`. -/
def parseDecCore (cs : List Char) : Option (JsNum × List Char) :=
  let signAndRest := signSplit cs
  if "Infinity".data.isPrefixOf signAndRest.2 then
    some (if signAndRest.1 = 1 then JsNum.posInf else JsNum.negInf, signAndRest.2.drop 8)
  else
    match parseMantissa signAndRest.2 with
    | some (q, rest) => some (.finite ((signAndRest.1 : ℚ) * q), rest)
    | none => none

/-- JavaScript `parseFloat`: skip leading whitespace, then the longest
prefix that is a decimal literal; `NaN` when there is none. -/
def jsParseFloat (s : String) : JsNum :=
  match parseDecCore (s.data.dropWhile Char.isWhitespace) with
  | some (v, _) => v
  | none => .nan

/-! ## JavaScript string helpers

`String.prototype.trim`, `startsWith`, `slice` and `split(/\s+/)` as the
parser uses them, written over `String.data` so that they can be reasoned
about as plain list functions.  `Char.isWhitespace` stands for the
whitespace class `\s` (the inputs of interest are ASCII). -/

/-- Removes trailing whitespace characters. -/
def trimRightChars (l : List Char) : List Char :=
  (l.reverse.dropWhile Char.isWhitespace).reverse

/-- Removes leading and trailing whitespace characters
(JavaScript `String.prototype.trim`). -/
def trimChars (l : List Char) : List Char :=
  trimRightChars (l.dropWhile Char.isWhitespace)

/-- JavaScript `s.trim()`. -/
def jsTrim (s : String) : String :=
  ⟨trimChars s.data⟩

/-- JavaScript `s.startsWith(p)`. -/
def jsStartsWith (s p : String) : Bool :=
  p.data.isPrefixOf s.data

/-- JavaScript `s.slice(n)` for a nonnegative `n`. -/
def jsSlice (s : String) (n : ℕ) : String :=
  ⟨s.data.drop n⟩

/-- The maximal runs of non-whitespace characters, accumulating the current
run in reverse in `acc`. -/
def splitRunsAux : List Char → List Char → List (List Char)
  | [], acc => if acc.isEmpty then [] else [acc.reverse]
  | c :: cs, acc =>
    if c.isWhitespace then
      if acc.isEmpty then splitRunsAux cs [] else acc.reverse :: splitRunsAux cs []
    else splitRunsAux cs (c :: acc)

/-- The maximal runs of non-whitespace characters of a list. -/
def splitRuns (cs : List Char) : List (List Char) :=
  splitRunsAux cs []

/-- JavaScript `s.split(/\s+/)` for a string `s` with no leading or trailing
whitespace (the parser always trims before splitting): the empty string
yields `[""]`, any other such string yields its whitespace-separated
tokens. -/
def splitWsTrimmed (s : String) : List String :=
  if s.data.isEmpty then [""] else (splitRuns s.data).map (fun l => ⟨l⟩)

/-- JavaScript `xs.join(" ")`. -/
def joinSpace : List String → String
  | [] => ""
  | [x] => x
  | x :: xs => x ++ " " ++ joinSpace xs

/-! ## `src/types.ts` -/

/-- The `Expense` interface of `src/types.ts`. -/
structure Expense where
  date : String
  type : Option String
  amount : JsNum
  description : String
  username : Option String
deriving DecidableEq

/-- The `ParseResult` interface of `src/types.ts`. -/
structure ParseResult where
  success : Bool
  expense : Option Expense
  error : Option String
deriving DecidableEq

/-- The `EXPENSE_TYPES` constant of `src/types.ts`. -/
def EXPENSE_TYPES : List String :=
  ["Super Market", "Fuel", "Car Repair", "Pharmacy", "Rent", "Other",
   "None", "Salon", "Hospital", "Bruno", "Bills", "Car"]

/-! ## `src/parser.ts`: `parseExpenseMessage` -/

/-- The error message for a message that does not start with a recognized
command token. -/
def missingPrefixMsg : String := "Message must start with /expense or /ex"

/-- The error message for a command with no amount token. -/
def missingAmountMsg : String := "Invalid format. Use: /expense <amount> [description]"

/-- The error message for an amount token that is `NaN` or not positive. -/
def invalidAmountMsg : String := "Invalid amount. Must be a positive number."

/-- A word character of the regex class `\w`: ASCII letters, digits, `_`. -/
def isWordChar (c : Char) : Bool :=
  c.isAlphanum || c = '_'

/-- The regex match `trimmed.match(/^\/ex@\w+\s/)` of the parser's
`/ex@botname` branch, returning the length of the match (`commandLength`)
when the string, already known to start with `/ex@`, continues with at
least one word character followed by a whitespace character. -/
def matchExAt (s : String) : Option ℕ :=
  if ((s.data.drop 4).takeWhile isWordChar).isEmpty then none
  else
    match (s.data.drop 4).dropWhile isWordChar with
    | c :: _ =>
      if c.isWhitespace then some (4 + ((s.data.drop 4).takeWhile isWordChar).length + 1)
      else none
    | [] => none

/-- The part of `parseExpenseMessage` after the command word has been
removed and the rest tokenized: amount validation, then the optional
description.  `today` stands for `new Date().toISOString().split('T')[0]`
(the parser reads the system clock; callers of the model inject it). -/
def parseParts (today : String) (parts : List String) (username : Option String) :
    ParseResult :=
  match parts with
  | [] => ParseResult.mk false none (some missingAmountMsg)
  | amountStr :: restParts =>
    if (jsTrim amountStr).data.isEmpty then
      ParseResult.mk false none (some missingAmountMsg)
    else
      let amount := jsParseFloat amountStr
      if jsIsNaN amount || jsLeZero amount then
        ParseResult.mk false none (some invalidAmountMsg)
      else
        let description := if restParts.isEmpty then "" else jsTrim (joinSpace restParts)
        ParseResult.mk true (some (Expense.mk today none amount description username)) none

/-- `parseExpenseMessage` of `src/parser.ts`: trim, recognize `/expense`,
`/ex ` or `/ex@botname `, drop the command word, trim and tokenize the
rest, then `parseParts`. -/
def parseExpenseMessage (today text : String) (username : Option String) :
    ParseResult :=
  let trimmed := jsTrim text
  let commandLength : Option ℕ :=
    if jsStartsWith trimmed "/expense" then some 8
    else if jsStartsWith trimmed "/ex " then some 3
    else if jsStartsWith trimmed "/ex@" then matchExAt trimmed
    else none
  match commandLength with
  | none => ParseResult.mk false none (some missingPrefixMsg)
  | some n =>
    parseParts today (splitWsTrimmed (jsTrim (jsSlice trimmed n))) username

/-- A whitespace-free, nonempty string: one token of `split(/\s+/)`. -/
abbrev IsToken (s : String) : Prop :=
  s.data ≠ [] ∧ ∀ c ∈ s.data, c.isWhitespace = false

/-! ## `src/bot.ts`: approval layer

The approved-users `Set<number>` is modelled as a duplicate-free list of
integers in insertion order; the configured admin id is an `Option ℤ`
(`undefined` is `none`).  JavaScript truthiness of a number shows up in two
guards: `adminUserId && ...` and `if (targetUserId)`, where `0` is falsy. -/

/-- `isUserApproved` of `src/bot.ts`: the admin is always approved (when a
truthy admin id is configured), otherwise membership in the set decides. -/
def isUserApproved (approvedUsers : List ℤ) (userId : ℤ) (adminUserId : Option ℤ) : Bool :=
  match adminUserId with
  | some a => if a ≠ 0 ∧ userId = a then true else approvedUsers.contains userId
  | none => approvedUsers.contains userId

/-- `approveUser` of `src/bot.ts` (`Set.add`, keeping insertion order). -/
def approveUser (approvedUsers : List ℤ) (userId : ℤ) : List ℤ :=
  if approvedUsers.contains userId then approvedUsers else approvedUsers ++ [userId]

/-- `removeApproval` of `src/bot.ts` (`Set.delete`). -/
def removeApproval (approvedUsers : List ℤ) (userId : ℤ) : List ℤ :=
  approvedUsers.filter (fun x => x != userId)

/-- The `isAdmin` check of `src/bot.ts`:
`userId !== undefined && userId === config.adminUserId`. -/
def isAdmin (userId : Option ℤ) (adminUserId : Option ℤ) : Bool :=
  match userId, adminUserId with
  | some u, some a => u == a
  | _, _ => false

/-- The `/unapprove` handler of `src/bot.ts`, as its transition on the
approved-users set: non-admin senders are denied; a missing or falsy (`0`)
target only produces a usage reply; a target equal to the admin id is
refused; otherwise the target is removed from the set. -/
def unapproveHandler (approvedUsers : List ℤ) (adminUserId : Option ℤ)
    (senderId : Option ℤ) (target : Option ℤ) : List ℤ :=
  if isAdmin senderId adminUserId then
    match target with
    | some t =>
      if t ≠ 0 then
        if some t = adminUserId then approvedUsers
        else removeApproval approvedUsers t
      else approvedUsers
    | none => approvedUsers
  else approvedUsers

/-! ## `src/bot.ts`: expense-type callback data -/

/-- The callback-data template of `createTypeSelectionKeyboard`:
`exp_type_${callbackId}_${type}`. -/
def encodeTypeCallback (callbackId t : String) : String :=
  "exp_type_" ++ callbackId ++ "_" ++ t

/-- Rows of at most three types, as `createTypeSelectionKeyboard` lays the
buttons out. -/
def chunk3 : List String → List (List String)
  | [] => []
  | [a] => [[a]]
  | [a, b] => [[a, b]]
  | a :: b :: c :: rest => [a, b, c] :: chunk3 rest

/-- `createTypeSelectionKeyboard` of `src/bot.ts`: each button carries its
type as text and the encoded callback data; a final Skip row uses `None`. -/
def createTypeSelectionKeyboard (callbackId : String) : List (List (String × String)) :=
  (chunk3 EXPENSE_TYPES).map (fun row => row.map (fun t => (t, encodeTypeCallback callbackId t)))
    ++ [[("⏭️ Skip", encodeTypeCallback callbackId "None")]]

/-- The index of the first occurrence of `pat` in the remaining characters,
`i` being the index of the first remaining character. -/
def findSubstrAux (pat : List Char) : List Char → ℕ → Option ℕ
  | [], i => if pat.isPrefixOf [] then some i else none
  | c :: rest, i =>
    if pat.isPrefixOf (c :: rest) then some i else findSubstrAux pat rest (i + 1)

/-- JavaScript `s.replace(pat, '')` for a plain-string pattern: removes the
first occurrence of `pat`, if any. -/
def jsReplaceFirst (s pat : String) : String :=
  match findSubstrAux pat.data s.data 0 with
  | some i => ⟨s.data.take i ++ s.data.drop (i + pat.data.length)⟩
  | none => s

/-- JavaScript `s.lastIndexOf(c)`, as an `Option` (`none` for `-1`). -/
def lastIndexOfChar (c : Char) : List Char → Option ℕ
  | [] => none
  | a :: rest =>
    match lastIndexOfChar c rest with
    | some i => some (i + 1)
    | none => if a = c then some 0 else none

/-- The decoding of the `callback_query` handler of `src/bot.ts`: for data
starting with `exp_type_`, strip that prefix with `replace`, then split at
the last underscore into the callback id and the type; `none` models the
thrown `Invalid callback data format` error. -/
def decodeTypeCallback (data : String) : Option (String × String) :=
  if jsStartsWith data "exp_type_" then
    match lastIndexOfChar '_' (jsReplaceFirst data "exp_type_").data with
    | none => none
    | some i =>
      some (⟨(jsReplaceFirst data "exp_type_").data.take i⟩,
        ⟨(jsReplaceFirst data "exp_type_").data.drop (i + 1)⟩)
  else none

/-! ## `src/sheets.ts`: the `SheetsService`

The remote spreadsheet is modelled as a list of tabs in listing order, each
a grid of cells; the service state also carries the `targetExpense` field of
the class.  Each backend call is a state transition returning
`Except String` (an `error` is a rejected API promise); backend write
failures are injected through a `Faults` record keyed by the request (tab
name and the range's start coordinates), and `addSheetDuplicate` stands for
the duplicate-create failure a concurrent creator causes between the
existence check and the create call.  All coordinates are 0-indexed, so A1
range `F4:H4` starts at row 3, column 5.  Formulas are stored unevaluated
(the program never evaluates them either; it trusts the backend). -/

/-- A spreadsheet cell as the program reads and writes it. -/
inductive CellValue where
  | empty
  | str (s : String)
  | num (q : ℚ)
  | formula (f : String)
deriving DecidableEq

/-- A tab's cell grid, row-major, 0-indexed. -/
abbrev Grid := List (List CellValue)

/-- The cell at row `r`, column `c` (absent cells are empty). -/
def getCell (g : Grid) (r c : ℕ) : CellValue :=
  (g.getD r []).getD c CellValue.empty

/-- Pads a list to length at least `n` with copies of `x`. -/
def padTo {α : Type} (l : List α) (n : ℕ) (x : α) : List α :=
  l ++ List.replicate (n - l.length) x

/-- Writes one cell, growing the grid as needed. -/
def setCell (g : Grid) (r c : ℕ) (v : CellValue) : Grid :=
  let g1 := padTo g (r + 1) []
  g1.set r ((padTo (g1.getD r []) (c + 1) CellValue.empty).set c v)

/-- Writes a row of cells starting at `(r, c)`. -/
def writeRowCells : Grid → ℕ → ℕ → List CellValue → Grid
  | g, _, _, [] => g
  | g, r, c, v :: vs => writeRowCells (setCell g r c v) r (c + 1) vs

/-- Writes a rectangle of values whose top-left corner is `(r, c)`
(a `values.update` request body). -/
def writeRect : Grid → ℕ → ℕ → List (List CellValue) → Grid
  | g, _, _, [] => g
  | g, r, c, row :: rows => writeRect (writeRowCells g r c row) (r + 1) c rows

/-- Empties the first `n` columns of one row. -/
def clearRowCols (row : List CellValue) (n : ℕ) : List CellValue :=
  (row.take n).map (fun _ => CellValue.empty) ++ row.drop n

/-- `values.clear` on the range `A:Z`: every row loses its first 26
columns; columns beyond `Z` are untouched. -/
def clearColsAZ (g : Grid) : Grid :=
  g.map (fun row => clearRowCols row 26)

/-- One tab of the spreadsheet. -/
structure SheetTab where
  title : String
  cells : Grid
deriving DecidableEq

/-- The remote spreadsheet: its tabs in the backend's listing order. -/
structure Spreadsheet where
  tabs : List SheetTab
deriving DecidableEq

/-- The `SheetsService` state: the remote spreadsheet plus the instance
field `this.targetExpense`. -/
structure ServiceState where
  sheet : Spreadsheet
  targetExpense : ℚ
deriving DecidableEq

/-- The tab titles in listing order (`getAllSheetNames`'s view). -/
def sheetTitles (sp : Spreadsheet) : List String :=
  sp.tabs.map (fun t => t.title)

/-- Whether a tab with this title exists (`sheetNames.includes(name)` /
`sheets.some(...)`). -/
def sheetExists (sp : Spreadsheet) (name : String) : Bool :=
  sp.tabs.any (fun t => t.title == name)

/-- The tab with this title, if any. -/
def findTab (sp : Spreadsheet) (name : String) : Option SheetTab :=
  sp.tabs.find? (fun t => t.title == name)

/-- Applies a grid transformation to the named tab. -/
def modifyTab (sp : Spreadsheet) (name : String) (f : Grid → Grid) : Spreadsheet :=
  ⟨sp.tabs.map (fun t => if t.title == name then ⟨t.title, f t.cells⟩ else t)⟩

/-- The cell of a named tab (empty when the tab is absent). -/
def getSheetCell (sp : Spreadsheet) (name : String) (r c : ℕ) : CellValue :=
  match findTab sp name with
  | some tab => getCell tab.cells r c
  | none => CellValue.empty

/-- Injected backend failures: `updateFails`/`formatFails` are keyed by the
tab name and the request range's 0-indexed start row and column;
`addSheetDuplicate` injects the duplicate-title failure of the race where a
concurrent caller created the tab after our existence check. -/
structure Faults where
  updateFails : String → ℕ → ℕ → Bool
  formatFails : String → ℕ → ℕ → Bool
  addSheetDuplicate : Bool

/-- The fault-free backend. -/
def noFaults : Faults :=
  ⟨fun _ _ _ => false, fun _ _ _ => false, false⟩

/-- A backend call: a state transition producing a result or a rejected
promise, together with the state its partial effects leave behind. -/
abbrev SheetsM (α : Type) := ServiceState → Except String α × ServiceState

/-- `spreadsheets.values.update`: fails when a fault is injected for this
request or the tab is absent, otherwise writes the rectangle. -/
def valuesUpdate (f : Faults) (name : String) (r c : ℕ) (rows : List (List CellValue)) :
    SheetsM Unit := fun s =>
  if f.updateFails name r c then (.error "update failed", s)
  else if sheetExists s.sheet name then
    (.ok (), { s with sheet := modifyTab s.sheet name (fun g => writeRect g r c rows) })
  else (.error ("Unable to parse range: " ++ name), s)

/-- A `spreadsheets.batchUpdate` carrying only `repeatCell` number-format /
color requests: cosmetic, no effect on the modelled cell contents, may
fail. -/
def batchUpdateFormat (f : Faults) (name : String) (r c : ℕ) : SheetsM Unit := fun s =>
  if f.formatFails name r c then (.error "format failed", s) else (.ok (), s)

/-- The `try { get sheetId; if (sheet) batchUpdate(...) } catch { warn }`
blocks around currency formatting: a formatting failure is caught and
logged, never propagated. -/
def tryFormat (f : Faults) (name : String) (r c : ℕ) : SheetsM Unit := fun s =>
  if sheetExists s.sheet name then
    match batchUpdateFormat f name r c s with
    | (_, s1) => (.ok (), s1)
  else (.ok (), s)

/-- `spreadsheets.batchUpdate` with an `addSheet` request: fails on a
duplicate title (also via the injected race), otherwise appends a fresh
empty tab at the end of the listing. -/
def addSheet (f : Faults) (name : String) : SheetsM Unit := fun s =>
  if sheetExists s.sheet name then
    (.error ("A sheet with the name " ++ name ++ " already exists"), s)
  else if f.addSheetDuplicate then
    (.error ("A sheet with the name " ++ name ++ " already exists"), s)
  else (.ok (), { s with sheet := ⟨s.sheet.tabs ++ [⟨name, []⟩]⟩ })

/-- `spreadsheets.values.clear` on `${name}!A:Z`. -/
def valuesClearAZ (name : String) : SheetsM Unit := fun s =>
  if sheetExists s.sheet name then
    (.ok (), { s with sheet := modifyTab s.sheet name clearColsAZ })
  else (.error ("Unable to parse range: " ++ name), s)

/-- The month abbreviations of `getMonthlySheetName`. -/
def monthNames : List String :=
  ["Jan", "Feb", "Mar", "Apr", "May", "Jun", "Jul", "Aug", "Sep", "Oct", "Nov", "Dec"]

/-- `getMonthlySheetName`: `"Mon YYYY"` for the given clock reading
(`date.getMonth()` is 0-indexed, `getFullYear()` four digits). -/
def getMonthlySheetName (month : Fin 12) (year : ℕ) : String :=
  monthNames.getD month.val "" ++ " " ++ toString year

/-- The summary header labels written to `F4:H4`. -/
def summaryHeaderRow : List (List CellValue) :=
  [[CellValue.str "Target Expense", CellValue.str "Total Expenses", CellValue.str "Remain"]]

/-- The ledger header labels written to `A5:D5`. -/
def expenseHeaderRow : List (List CellValue) :=
  [[CellValue.str "Date", CellValue.str "Type", CellValue.str "Amount", CellValue.str "Description"]]

/-- The summary values written to `F5:H5`: the target literal and the two
summary formulas. -/
def summaryValuesRow (t : ℚ) : List (List CellValue) :=
  [[CellValue.num t, CellValue.formula "=SUM(C6:C)", CellValue.formula "=F5-G5"]]

/-- The type-breakdown rows written to `F14:G24`: every catalog type except
`None`, with its `SUMIF` formula. -/
def breakdownRows : List (List CellValue) :=
  (EXPENSE_TYPES.filter (fun t => t != "None")).map
    (fun t => [CellValue.str t, CellValue.formula ("=SUMIF(B6:B, \"" ++ t ++ "\", C6:C)")])

/-- `initializeTypeBreakdown`: writes the breakdown rows (range `F14:G24`,
start `(13, 5)`), then applies currency formatting to column G (start
`(13, 6)`).  Its own `catch` logs and does NOT rethrow, so the call always
resolves. -/
def initializeTypeBreakdown (f : Faults) (name : String) : SheetsM Unit := fun s =>
  match valuesUpdate f name 13 5 breakdownRows s with
  | (.error _, s1) => (.ok (), s1)
  | (.ok _, s1) =>
    match tryFormat f name 13 6 s1 with
    | (_, s2) => (.ok (), s2)

/-- `applySheetFormatting`: one batch of `repeatCell` color/format requests
(first request starts at `(3, 5)`); its `catch` logs and does not rethrow
(`formatting is not critical`), and a missing tab only raises inside the
same `try`. -/
def applySheetFormatting (f : Faults) (name : String) : SheetsM Unit := fun s =>
  if sheetExists s.sheet name then
    match batchUpdateFormat f name 3 5 s with
    | (_, s1) => (.ok (), s1)
  else (.ok (), s)

/-- `initializeSheetStructure`: summary headers `F4:H4`, summary values
`F5:H5` (the target literal from `this.targetExpense` and the two
formulas), a non-fatal currency-format block, ledger headers `A5:D5`, the
breakdown (whose failures its callee swallows), and non-fatal sheet
formatting.  Failures of the three `values.update` calls written here
propagate (the outer `catch` rethrows). -/
def initializeSheetStructure (f : Faults) (name : String) : SheetsM Unit := fun s =>
  match valuesUpdate f name 3 5 summaryHeaderRow s with
  | (.error e, s1) => (.error e, s1)
  | (.ok _, s1) =>
    match valuesUpdate f name 4 5 (summaryValuesRow s1.targetExpense) s1 with
    | (.error e, s2) => (.error e, s2)
    | (.ok _, s2) =>
      match tryFormat f name 4 5 s2 with
      | (_, s3) =>
        match valuesUpdate f name 4 0 expenseHeaderRow s3 with
        | (.error e, s4) => (.error e, s4)
        | (.ok _, s4) =>
          match initializeTypeBreakdown f name s4 with
          | (_, s5) =>
            match applySheetFormatting f name s5 with
            | (_, s6) => (.ok (), s6)

/-- `ensureMonthlySheetExists`: no-op when the tab is listed; otherwise
create it and initialize its structure.  The `catch` logs and rethrows, so
every failure — including a duplicate-create — propagates to the caller. -/
def ensureMonthlySheetExists (f : Faults) (name : String) : SheetsM Unit := fun s =>
  if sheetExists s.sheet name then (.ok (), s)
  else
    match addSheet f name s with
    | (.error e, s1) => (.error e, s1)
    | (.ok _, s1) => initializeSheetStructure f name s1

/-- A trailing run of empty cells is not returned by `values.get`. -/
def dropTrailingEmptyCells (row : List CellValue) : List CellValue :=
  (row.reverse.dropWhile (fun v => v == CellValue.empty)).reverse

/-- Trailing rows with no data in the requested range are not returned. -/
def dropTrailingEmptyRows (rows : Grid) : Grid :=
  (rows.reverse.dropWhile (fun r => r.isEmpty)).reverse

/-- The rows a `values.get` on rows `r0..`, columns `c0..c1` returns. -/
def sliceRows (g : Grid) (r0 c0 c1 : ℕ) : Grid :=
  dropTrailingEmptyRows
    ((g.drop r0).map (fun row => dropTrailingEmptyCells ((row.drop c0).take (c1 + 1 - c0))))

/-- `spreadsheets.values.get` on `${name}!A6:D` style ranges (0-indexed
start row `r0`, columns `c0..c1`); errors when the tab is absent. -/
def valuesGetRows (name : String) (r0 c0 c1 : ℕ) : SheetsM Grid := fun s =>
  match findTab s.sheet name with
  | some tab => (.ok (sliceRows tab.cells r0 c0 c1), s)
  | none => (.error ("Unable to parse range: " ++ name), s)

/-- `getAllSheetNames`. -/
def getAllSheetNames : SheetsM (List String) := fun s =>
  (.ok (sheetTitles s.sheet), s)

/-- JavaScript `row[i] || ''` on a read cell (string rendering of a numeric
or formula cell is abstract — no verified property depends on it). -/
def cellToStr : CellValue → String
  | CellValue.empty => ""
  | CellValue.str s => s
  | CellValue.num q => toString q
  | CellValue.formula f => f

/-- JavaScript `parseFloat(row[2])` on a read cell: a numeric cell reads
back as its own value, a string cell is parsed, a missing cell is `NaN`
(`parseFloat(undefined)`); formula cells stay unevaluated in the model. -/
def cellParseFloat : CellValue → JsNum
  | CellValue.num q => JsNum.finite q
  | CellValue.str s => jsParseFloat s
  | CellValue.empty => JsNum.nan
  | CellValue.formula f => jsParseFloat f

/-- One read row, as `getAllExpenses`/`getExpensesFromSheet` map it:
`{date: row[0] || '', type: row[1] || undefined,
amount: parseFloat(row[2]) || 0, description: row[3] || ''}`. -/
def rowToExpense (row : List CellValue) : Expense :=
  { date := cellToStr (row.getD 0 CellValue.empty)
  , type :=
      if cellToStr (row.getD 1 CellValue.empty) = "" then none
      else some (cellToStr (row.getD 1 CellValue.empty))
  , amount := jsOrZero (cellParseFloat (row.getD 2 CellValue.empty))
  , description := cellToStr (row.getD 3 CellValue.empty)
  , username := none }

/-- `getExpensesFromSheet`: reads `A6:D` of the named tab; its `catch`
returns `[]` instead of propagating. -/
def getExpensesFromSheet (name : String) : SheetsM (List Expense) := fun s =>
  match valuesGetRows name 5 0 3 s with
  | (.ok rows, s1) => (.ok (rows.map rowToExpense), s1)
  | (.error _, s1) => (.ok [], s1)

/-- `getAllExpenses`: reads `A6:D` of the current month's tab (the clock is
injected), returning `[]` when that tab is not listed; read errors
propagate. -/
def getAllExpenses (month : Fin 12) (year : ℕ) : SheetsM (List Expense) := fun s =>
  match getAllSheetNames s with
  | (.ok names, s1) =>
    if names.contains (getMonthlySheetName month year) then
      match valuesGetRows (getMonthlySheetName month year) 5 0 3 s1 with
      | (.ok rows, s2) => (.ok (rows.map rowToExpense), s2)
      | (.error e, s2) => (.error e, s2)
    else (.ok [], s1)
  | (.error e, s1) => (.error e, s1)

/-- The monthly-tab regex `^(Jan|Feb|Mar|Apr|May|Jun|Jul|Aug|Sep|Oct|Nov|Dec) \d{4}$`. -/
def isMonthlySheetName (s : String) : Bool :=
  monthNames.any (fun m =>
    List.isPrefixOf (m ++ " ").data s.data
      && ((s.data.drop (m.length + 1)).length == 4
        && (s.data.drop (m.length + 1)).all Char.isDigit))

/-- The `for (const sheetName of monthlySheets)` loop of
`getAllMonthlyExpenses`, pushing each tab's rows onto the accumulator. -/
def getAllMonthlyExpensesLoop : List String → List Expense → SheetsM (List Expense) :=
  fun names acc s =>
    match names with
    | [] => (.ok acc, s)
    | n :: ns =>
      match getExpensesFromSheet n s with
      | (.ok es, s1) => getAllMonthlyExpensesLoop ns (acc ++ es) s1
      | (.error e, s1) => (.error e, s1)

/-- `getAllMonthlyExpenses`: list the tabs, keep the monthly ones, read
each in listing order and concatenate. -/
def getAllMonthlyExpenses : SheetsM (List Expense) := fun s =>
  match getAllSheetNames s with
  | (.ok names, s1) => getAllMonthlyExpensesLoop (names.filter isMonthlySheetName) [] s1
  | (.error e, s1) => (.error e, s1)

/-- `getTotalExpenses`: re-reads the current month's rows and reduces their
amounts with `+` starting from `0`. -/
def getTotalExpenses (month : Fin 12) (year : ℕ) : SheetsM JsNum := fun s =>
  match getAllExpenses month year s with
  | (.ok es, s1) => (.ok (es.foldl (fun acc e => jsAdd acc e.amount) (JsNum.finite 0)), s1)
  | (.error e, s1) => (.error e, s1)

/-- `getTotalAllExpenses`: re-reads all monthly tabs and reduces the
amounts with `+` starting from `0`. -/
def getTotalAllExpenses : SheetsM JsNum := fun s =>
  match getAllMonthlyExpenses s with
  | (.ok es, s1) => (.ok (es.foldl (fun acc e => jsAdd acc e.amount) (JsNum.finite 0)), s1)
  | (.error e, s1) => (.error e, s1)

/-- The `{ success, message }` result of `resetSheetToInitialState`. -/
structure ResetResult where
  success : Bool
  message : String
deriving DecidableEq

/-- `resetSheetToInitialState(name, targetExpense = 150000)`: remember the
original `this.targetExpense` and set the field to the reset target; if the
tab is not listed, create and initialize it and restore the field; else
clear `A:Z`, re-initialize the structure, and restore the field.  Every
failure is caught and reported as `success: false` (the field is then NOT
restored, as in the source).  The human-readable messages carry no numeric
rendering of the target in the model. -/
def resetSheetToInitialState (f : Faults) (name : String) (targetExpense : ℚ) :
    ServiceState → ResetResult × ServiceState := fun s =>
  let originalTargetExpense := s.targetExpense
  let s1 : ServiceState := { s with targetExpense := targetExpense }
  if sheetExists s1.sheet name = false then
    match ensureMonthlySheetExists f name s1 with
    | (.ok _, s2) =>
      (⟨true, "Sheet " ++ name ++ " created and initialized with target expense."⟩,
        { s2 with targetExpense := originalTargetExpense })
    | (.error e, s2) => (⟨false, "Failed to reset sheet: " ++ e⟩, s2)
  else
    match valuesClearAZ name s1 with
    | (.error e, s2) => (⟨false, "Failed to reset sheet: " ++ e⟩, s2)
    | (.ok _, s2) =>
      match initializeSheetStructure f name s2 with
      | (.error e, s3) => (⟨false, "Failed to reset sheet: " ++ e⟩, s3)
      | (.ok _, s3) =>
        (⟨true, "Sheet " ++ name ++ " has been reset to initial state. All data cleared."⟩,
          { s3 with targetExpense := originalTargetExpense })

/-- The grid effect of a fault-free `initializeSheetStructure`: the four
`values.update` rectangles in source order. -/
def initStructureWrites (t : ℚ) (g : Grid) : Grid :=
  writeRect (writeRect (writeRect (writeRect g 3 5 summaryHeaderRow) 4 5 (summaryValuesRow t))
    4 0 expenseHeaderRow) 13 5 breakdownRows

/-- The pure reading of one tab's expense rows: what `readExpenses` (i.e.
`getExpensesFromSheet`) yields on the current state. -/
def expensesOfTab (sp : Spreadsheet) (name : String) : List Expense :=
  match findTab sp name with
  | some tab => (sliceRows tab.cells 5 0 3).map rowToExpense
  | none => []

/-- The sum of the amount fields of a list of expense records. -/
def amountSum (es : List Expense) : JsNum :=
  (es.map (fun e => e.amount)).foldl jsAdd (JsNum.finite 0)

/-- The cells the fault-free structure initialization writes: the summary
header `F4:H4`, the summary values `F5:H5`, the ledger header `A5:D5`, and
the breakdown `F14:G24`. -/
abbrev inInitRegion (r c : ℕ) : Prop :=
  (r = 3 ∧ 5 ≤ c ∧ c ≤ 7) ∨ (r = 4 ∧ 5 ≤ c ∧ c ≤ 7) ∨ (r = 4 ∧ c ≤ 3)
    ∨ (13 ≤ r ∧ r ≤ 23 ∧ (c = 5 ∨ c = 6))

/-! ## Helper lemmas -/

theorem string_data_append (s t : String) : (s ++ t).data = s.data ++ t.data := rfl

theorem string_mk_data (s : String) : (⟨s.data⟩ : String) = s := rfl

theorem list_isPrefixOf_append_same (p l₁ l₂ : List Char) :
    List.isPrefixOf (p ++ l₁) (p ++ l₂) = List.isPrefixOf l₁ l₂ := by
  induction p with
  | nil => rfl
  | cons a as ih => simp [List.isPrefixOf, ih]

theorem list_isPrefixOf_self_append (l r : List Char) : List.isPrefixOf l (l ++ r) = true := by
  have h := list_isPrefixOf_append_same l [] r
  rw [List.append_nil] at h
  rw [h]
  cases r <;> rfl

theorem takeWhile_append_of_all (p : Char → Bool) (w : List Char) (x : Char) (r : List Char)
    (hw : ∀ c ∈ w, p c = true) (hx : p x = false) :
    (w ++ x :: r).takeWhile p = w := by
  induction w with
  | nil => simp [List.takeWhile_cons, hx]
  | cons a as ih =>
    have ha : p a = true := hw a (by simp)
    simp only [List.cons_append, List.takeWhile_cons, ha, if_true]
    rw [ih (fun c hc => hw c (by simp [hc]))]

theorem dropWhile_append_of_all (p : Char → Bool) (w : List Char) (x : Char) (r : List Char)
    (hw : ∀ c ∈ w, p c = true) (hx : p x = false) :
    (w ++ x :: r).dropWhile p = x :: r := by
  induction w with
  | nil => simp [List.dropWhile_cons, hx]
  | cons a as ih =>
    have ha : p a = true := hw a (by simp)
    simp only [List.cons_append, List.dropWhile_cons, ha, if_true]
    exact ih (fun c hc => hw c (by simp [hc]))

theorem dropWhile_of_head_false (p : Char → Bool) (c : Char) (l : List Char) (hc : p c = false) :
    (c :: l).dropWhile p = c :: l := by
  simp [List.dropWhile_cons, hc]

theorem trimRightChars_append (l₁ l₂ : List Char) (h₂ : l₂ ≠ [])
    (hw : ∀ c ∈ l₂, c.isWhitespace = false) :
    trimRightChars (l₁ ++ l₂) = l₁ ++ l₂ := by
  obtain ⟨m, a, rfl⟩ : ∃ m a, l₂ = m ++ [a] := by
    rcases List.eq_nil_or_concat l₂ with h | ⟨m, a, h⟩
    · exact absurd h h₂
    · exact ⟨m, a, by simpa [List.concat_eq_append] using h⟩
  have ha : a.isWhitespace = false := hw a (by simp)
  unfold trimRightChars
  rw [show l₁ ++ (m ++ [a]) = (l₁ ++ m) ++ [a] by simp, List.reverse_append]
  simp only [List.reverse_cons, List.reverse_nil, List.nil_append, List.singleton_append]
  rw [dropWhile_of_head_false _ _ _ ha]
  simp

theorem trimChars_cons_head (c : Char) (l₁ l₂ : List Char) (hc : c.isWhitespace = false)
    (h₂ : l₂ ≠ []) (hw : ∀ x ∈ l₂, x.isWhitespace = false) :
    trimChars (c :: (l₁ ++ l₂)) = c :: (l₁ ++ l₂) := by
  unfold trimChars
  rw [dropWhile_of_head_false _ _ _ hc,
    show c :: (l₁ ++ l₂) = (c :: l₁) ++ l₂ by simp]
  exact trimRightChars_append (c :: l₁) l₂ h₂ hw

theorem trimChars_of_no_ws (l : List Char) (hw : ∀ x ∈ l, x.isWhitespace = false) :
    trimChars l = l := by
  cases l with
  | nil => rfl
  | cons c l' =>
    unfold trimChars
    rw [dropWhile_of_head_false _ _ _ (hw c (by simp))]
    exact trimRightChars_append [] (c :: l') (by simp) hw

theorem trimChars_cons_ws (c : Char) (l : List Char) (hc : c.isWhitespace = true) :
    trimChars (c :: l) = trimChars l := by
  unfold trimChars
  rw [List.dropWhile_cons, if_pos hc]

theorem splitRunsAux_append_run (w r acc : List Char)
    (hw : ∀ c ∈ w, c.isWhitespace = false) :
    splitRunsAux (w ++ r) acc = splitRunsAux r (w.reverse ++ acc) := by
  induction w generalizing acc with
  | nil => simp
  | cons a as ih =>
    have ha : a.isWhitespace = false := hw a (by simp)
    simp only [List.cons_append, splitRunsAux, ha, Bool.false_eq_true, if_false]
    rw [show as.append r = as ++ r from rfl, ih (a :: acc) (fun c hc => hw c (by simp [hc]))]
    simp

theorem splitRunsAux_ws_cons (c : Char) (cs acc : List Char) (hc : c.isWhitespace = true)
    (ha : acc ≠ []) :
    splitRunsAux (c :: cs) acc = acc.reverse :: splitRunsAux cs [] := by
  simp only [splitRunsAux, hc, if_true]
  rw [if_neg (by simpa using ha)]

theorem splitRuns_token (t : List Char) (ht : t ≠ [])
    (hw : ∀ c ∈ t, c.isWhitespace = false) :
    splitRuns t = [t] := by
  unfold splitRuns
  rw [show t = t ++ [] by simp, splitRunsAux_append_run t [] [] hw]
  simp only [splitRunsAux, List.append_nil]
  rw [if_neg (by simpa using ht)]
  simp

theorem splitRuns_two_tokens (a d : List Char) (haz : a ≠ []) (hdz : d ≠ [])
    (hwa : ∀ c ∈ a, c.isWhitespace = false) (hwd : ∀ c ∈ d, c.isWhitespace = false) :
    splitRuns (a ++ ' ' :: d) = [a, d] := by
  unfold splitRuns
  rw [splitRunsAux_append_run a (' ' :: d) [] hwa,
    splitRunsAux_ws_cons ' ' d (a.reverse ++ []) (by decide) (by simpa using haz)]
  simp only [List.append_nil, List.reverse_reverse]
  rw [show splitRunsAux d [] = splitRuns d from rfl, splitRuns_token d hdz hwd]

theorem isWordChar_not_ws (c : Char) (h : isWordChar c = true) : c.isWhitespace = false := by
  rcases Bool.eq_false_or_eq_true c.isWhitespace with hw | hw
  · exfalso
    have : ((c = ' ' ∨ c = '\t') ∨ c = '\r') ∨ c = '\n' := by
      simpa [Char.isWhitespace] using hw
    rcases this with ((h1 | h1) | h1) | h1 <;> subst h1 <;> exact absurd h (by decide)
  · exact hw

theorem parse_message_expense_one (today t : String) (u : Option String)
    (ht : IsToken t) :
    parseExpenseMessage today ("/expense " ++ t) u = parseParts today [t] u := by
  obtain ⟨htz, htw⟩ := ht
  have hdata : ("/expense " ++ t).data = '/' :: ("expense ".data ++ t.data) := by
    rw [string_data_append]; rfl
  have htrim : trimChars ("/expense " ++ t).data = ("/expense " ++ t).data := by
    rw [hdata]; exact trimChars_cons_head '/' "expense ".data t.data (by decide) htz htw
  have hpre : jsStartsWith ⟨("/expense " ++ t).data⟩ "/expense" = true := by
    unfold jsStartsWith
    rw [show (⟨("/expense " ++ t).data⟩ : String).data = "/expense".data ++ (' ' :: t.data) by
      rw [string_data_append]; rfl]
    exact list_isPrefixOf_self_append _ _
  have hdrop : (("/expense " ++ t).data).drop 8 = ' ' :: t.data := by
    rw [show ("/expense " ++ t).data = "/expense".data ++ (' ' :: t.data) by
      rw [string_data_append]; rfl]
    exact List.drop_left' (by decide)
  simp only [parseExpenseMessage, jsTrim, htrim, string_mk_data, hpre, if_true]
  simp only [jsSlice, hdrop, trimChars_cons_ws ' ' t.data (by decide),
    trimChars_of_no_ws t.data htw]
  unfold splitWsTrimmed
  rw [if_neg (by simpa using htz)]
  rw [show (⟨t.data⟩ : String).data = t.data from rfl, splitRuns_token t.data htz htw]
  simp [string_mk_data]

theorem parse_message_expense_two (today a d : String) (u : Option String)
    (ha : IsToken a) (hd : IsToken d) :
    parseExpenseMessage today ("/expense " ++ a ++ " " ++ d) u = parseParts today [a, d] u := by
  obtain ⟨haz, hwa⟩ := ha
  obtain ⟨hdz, hwd⟩ := hd
  have hdata : ("/expense " ++ a ++ " " ++ d).data
      = "/expense".data ++ (' ' :: (a.data ++ ' ' :: d.data)) := by
    simp only [string_data_append]
    simp [show " ".data = [' '] from rfl, show "/expense ".data = "/expense".data ++ [' '] from rfl]
  have htrim : trimChars ("/expense " ++ a ++ " " ++ d).data
      = ("/expense " ++ a ++ " " ++ d).data := by
    rw [hdata,
      show "/expense".data ++ (' ' :: (a.data ++ ' ' :: d.data))
        = '/' :: (("expense".data ++ (' ' :: a.data) ++ [' ']) ++ d.data) by simp]
    exact trimChars_cons_head _ _ _ (by decide) hdz hwd
  have hpre : jsStartsWith ⟨("/expense " ++ a ++ " " ++ d).data⟩ "/expense" = true := by
    unfold jsStartsWith
    rw [show (⟨("/expense " ++ a ++ " " ++ d).data⟩ : String).data
        = ("/expense " ++ a ++ " " ++ d).data from rfl, hdata]
    exact list_isPrefixOf_self_append _ _
  have hdrop : (("/expense " ++ a ++ " " ++ d).data).drop 8 = ' ' :: (a.data ++ ' ' :: d.data) := by
    rw [hdata]; exact List.drop_left' (by decide)
  have hmid : trimChars (a.data ++ ' ' :: d.data) = a.data ++ ' ' :: d.data := by
    obtain ⟨c, a', hca⟩ : ∃ c a', a.data = c :: a' := by
      cases h : a.data with
      | nil => exact absurd h haz
      | cons c a' => exact ⟨c, a', rfl⟩
    rw [hca, show (c :: a') ++ ' ' :: d.data = c :: ((a' ++ [' ']) ++ d.data) by simp]
    exact trimChars_cons_head _ _ _ (hwa c (by simp [hca])) hdz hwd
  simp only [parseExpenseMessage, jsTrim, htrim, string_mk_data, hpre, if_true]
  simp only [jsSlice, hdrop, trimChars_cons_ws ' ' _ (by decide), hmid]
  unfold splitWsTrimmed
  rw [if_neg (by simp [haz])]
  rw [show (⟨a.data ++ ' ' :: d.data⟩ : String).data = a.data ++ ' ' :: d.data from rfl,
    splitRuns_two_tokens a.data d.data haz hdz hwa hwd]
  simp [string_mk_data]

theorem isPrefixOf_cons_false (a b : Char) (l₁ l₂ : List Char) (h : a ≠ b) :
    List.isPrefixOf (a :: l₁) (b :: l₂) = false := by
  simp [List.isPrefixOf, h]

theorem splitRuns_token_cons (w rest : List Char) (hwz : w ≠ [])
    (hww : ∀ c ∈ w, c.isWhitespace = false) :
    splitRuns (w ++ ' ' :: rest) = w :: splitRuns rest := by
  unfold splitRuns
  rw [splitRunsAux_append_run w (' ' :: rest) [] hww,
    splitRunsAux_ws_cons ' ' rest (w.reverse ++ []) (by decide) (by simpa using hwz)]
  simp

theorem jsParseFloat_at_head (l : List Char) : jsParseFloat ⟨'@' :: l⟩ = JsNum.nan := by
  have h1 : ('@' :: l).dropWhile Char.isWhitespace = '@' :: l :=
    dropWhile_of_head_false _ _ _ (by decide)
  have h2 : signSplit ('@' :: l) = (1, '@' :: l) := by
    simp [signSplit]
  have h3 : List.isPrefixOf "Infinity".data ('@' :: l) = false :=
    isPrefixOf_cons_false 'I' '@' _ _ (by decide)
  have h4 : takeDigits ('@' :: l) = ([], '@' :: l) := by
    simp [takeDigits, List.takeWhile_cons, List.dropWhile_cons]
  unfold jsParseFloat
  rw [show (⟨'@' :: l⟩ : String).data = '@' :: l from rfl, h1]
  unfold parseDecCore
  rw [h2]
  simp only [h3, Bool.false_eq_true, if_false]
  unfold parseMantissa
  rw [h4]
  simp

theorem parse_message_ex_at (today name a d : String) (u : Option String)
    (hn : name.data ≠ []) (hwn : ∀ c ∈ name.data, isWordChar c = true)
    (ha : IsToken a) (hd : IsToken d) :
    parseExpenseMessage today ("/ex@" ++ name ++ " " ++ a ++ " " ++ d) u
      = parseParts today [a, d] u := by
  obtain ⟨haz, hwa⟩ := ha
  obtain ⟨hdz, hwd⟩ := hd
  have hnws : ∀ c ∈ name.data, c.isWhitespace = false :=
    fun c hc => isWordChar_not_ws c (hwn c hc)
  have hdata : ("/ex@" ++ name ++ " " ++ a ++ " " ++ d).data
      = "/ex@".data ++ (name.data ++ ' ' :: (a.data ++ ' ' :: d.data)) := by
    simp only [string_data_append]
    simp [show " ".data = [' '] from rfl]
  have htrim : trimChars ("/ex@" ++ name ++ " " ++ a ++ " " ++ d).data
      = ("/ex@" ++ name ++ " " ++ a ++ " " ++ d).data := by
    rw [hdata,
      show "/ex@".data ++ (name.data ++ ' ' :: (a.data ++ ' ' :: d.data))
        = '/' :: ((['e', 'x', '@'] ++ name.data ++ (' ' :: a.data) ++ [' ']) ++ d.data) by simp]
    exact trimChars_cons_head _ _ _ (by decide) hdz hwd
  have hpre1 : jsStartsWith ⟨("/ex@" ++ name ++ " " ++ a ++ " " ++ d).data⟩ "/expense" = false := by
    unfold jsStartsWith
    rw [show (⟨("/ex@" ++ name ++ " " ++ a ++ " " ++ d).data⟩ : String).data
        = ("/ex@" ++ name ++ " " ++ a ++ " " ++ d).data from rfl, hdata,
      show ("/ex@".data ++ (name.data ++ ' ' :: (a.data ++ ' ' :: d.data)))
        = "/ex".data ++ ('@' :: (name.data ++ ' ' :: (a.data ++ ' ' :: d.data))) by simp,
      show "/expense".data = "/ex".data ++ ('p' :: "ense".data) from rfl,
      list_isPrefixOf_append_same]
    exact isPrefixOf_cons_false 'p' '@' _ _ (by decide)
  have hpre2 : jsStartsWith ⟨("/ex@" ++ name ++ " " ++ a ++ " " ++ d).data⟩ "/ex " = false := by
    unfold jsStartsWith
    rw [show (⟨("/ex@" ++ name ++ " " ++ a ++ " " ++ d).data⟩ : String).data
        = ("/ex@" ++ name ++ " " ++ a ++ " " ++ d).data from rfl, hdata,
      show ("/ex@".data ++ (name.data ++ ' ' :: (a.data ++ ' ' :: d.data)))
        = "/ex".data ++ ('@' :: (name.data ++ ' ' :: (a.data ++ ' ' :: d.data))) by simp,
      show "/ex ".data = "/ex".data ++ (' ' :: []) from rfl,
      list_isPrefixOf_append_same]
    exact isPrefixOf_cons_false ' ' '@' _ _ (by decide)
  have hpre3 : jsStartsWith ⟨("/ex@" ++ name ++ " " ++ a ++ " " ++ d).data⟩ "/ex@" = true := by
    unfold jsStartsWith
    rw [show (⟨("/ex@" ++ name ++ " " ++ a ++ " " ++ d).data⟩ : String).data
        = ("/ex@" ++ name ++ " " ++ a ++ " " ++ d).data from rfl, hdata]
    exact list_isPrefixOf_self_append _ _
  have hmatch : matchExAt ⟨("/ex@" ++ name ++ " " ++ a ++ " " ++ d).data⟩
      = some (4 + name.data.length + 1) := by
    unfold matchExAt
    rw [show (⟨("/ex@" ++ name ++ " " ++ a ++ " " ++ d).data⟩ : String).data
        = ("/ex@" ++ name ++ " " ++ a ++ " " ++ d).data from rfl, hdata,
      List.drop_left' (by decide),
      takeWhile_append_of_all isWordChar name.data ' ' _ hwn (by decide),
      dropWhile_append_of_all isWordChar name.data ' ' _ hwn (by decide)]
    rw [if_neg (by simpa using hn)]
    simp
  have hdrop : (("/ex@" ++ name ++ " " ++ a ++ " " ++ d).data).drop (4 + name.data.length + 1)
      = a.data ++ ' ' :: d.data := by
    rw [hdata,
      show "/ex@".data ++ (name.data ++ ' ' :: (a.data ++ ' ' :: d.data))
        = ("/ex@".data ++ name.data ++ [' ']) ++ (a.data ++ ' ' :: d.data) by simp]
    exact List.drop_left' (by simp; omega)
  have hmid : trimChars (a.data ++ ' ' :: d.data) = a.data ++ ' ' :: d.data := by
    obtain ⟨c, a', hca⟩ : ∃ c a', a.data = c :: a' := by
      cases h : a.data with
      | nil => exact absurd h haz
      | cons c a' => exact ⟨c, a', rfl⟩
    rw [hca, show (c :: a') ++ ' ' :: d.data = c :: ((a' ++ [' ']) ++ d.data) by simp]
    exact trimChars_cons_head _ _ _ (hwa c (by simp [hca])) hdz hwd
  have hsplit : splitWsTrimmed ⟨a.data ++ ' ' :: d.data⟩ = [a, d] := by
    unfold splitWsTrimmed
    rw [if_neg (by simp [haz])]
    rw [show (⟨a.data ++ ' ' :: d.data⟩ : String).data = a.data ++ ' ' :: d.data from rfl,
      splitRuns_two_tokens a.data d.data haz hdz hwa hwd]
    simp [string_mk_data]
  simp only [parseExpenseMessage, jsTrim, htrim, string_mk_data, hpre1, hpre2, hpre3,
    Bool.false_eq_true, if_false, if_true, hmatch]
  simp only [jsSlice, hdrop, hmid, hsplit]

theorem parse_message_expense_at (today name a d : String) (u : Option String)
    (_hn : name.data ≠ []) (hwn : ∀ c ∈ name.data, isWordChar c = true)
    (ha : IsToken a) (hd : IsToken d) :
    parseExpenseMessage today ("/expense@" ++ name ++ " " ++ a ++ " " ++ d) u
      = ParseResult.mk false none (some invalidAmountMsg) := by
  obtain ⟨haz, hwa⟩ := ha
  obtain ⟨hdz, hwd⟩ := hd
  have hnws : ∀ c ∈ name.data, c.isWhitespace = false :=
    fun c hc => isWordChar_not_ws c (hwn c hc)
  have hdata : ("/expense@" ++ name ++ " " ++ a ++ " " ++ d).data
      = "/expense".data ++ ('@' :: (name.data ++ ' ' :: (a.data ++ ' ' :: d.data))) := by
    simp only [string_data_append]
    simp [show " ".data = [' '] from rfl,
      show "/expense@".data = "/expense".data ++ ['@'] from rfl]
  have htrim : trimChars ("/expense@" ++ name ++ " " ++ a ++ " " ++ d).data
      = ("/expense@" ++ name ++ " " ++ a ++ " " ++ d).data := by
    rw [hdata,
      show "/expense".data ++ ('@' :: (name.data ++ ' ' :: (a.data ++ ' ' :: d.data)))
        = '/' :: (("expense@".data ++ name.data ++ (' ' :: a.data) ++ [' ']) ++ d.data) by simp]
    exact trimChars_cons_head _ _ _ (by decide) hdz hwd
  have hpre : jsStartsWith ⟨("/expense@" ++ name ++ " " ++ a ++ " " ++ d).data⟩ "/expense" = true := by
    unfold jsStartsWith
    rw [show (⟨("/expense@" ++ name ++ " " ++ a ++ " " ++ d).data⟩ : String).data
        = ("/expense@" ++ name ++ " " ++ a ++ " " ++ d).data from rfl, hdata]
    exact list_isPrefixOf_self_append _ _
  have hdrop : (("/expense@" ++ name ++ " " ++ a ++ " " ++ d).data).drop 8
      = '@' :: (name.data ++ ' ' :: (a.data ++ ' ' :: d.data)) := by
    rw [hdata]; exact List.drop_left' (by decide)
  have hmid : trimChars ('@' :: (name.data ++ ' ' :: (a.data ++ ' ' :: d.data)))
      = '@' :: (name.data ++ ' ' :: (a.data ++ ' ' :: d.data)) := by
    rw [show '@' :: (name.data ++ ' ' :: (a.data ++ ' ' :: d.data))
        = '@' :: ((name.data ++ (' ' :: a.data) ++ [' ']) ++ d.data) by simp]
    exact trimChars_cons_head _ _ _ (by decide) hdz hwd
  have hsplit : splitRuns ('@' :: (name.data ++ ' ' :: (a.data ++ ' ' :: d.data)))
      = [('@' :: name.data), a.data, d.data] := by
    rw [show '@' :: (name.data ++ ' ' :: (a.data ++ ' ' :: d.data))
        = ('@' :: name.data) ++ ' ' :: (a.data ++ ' ' :: d.data) by simp]
    rw [splitRuns_token_cons ('@' :: name.data) _ (by simp)
      (by intro c hc; rcases List.mem_cons.mp hc with h | h
          · subst h; decide
          · exact hnws c h)]
    rw [splitRuns_two_tokens a.data d.data haz hdz hwa hwd]
  have hatok : trimChars ('@' :: name.data) = '@' :: name.data := by
    refine trimChars_of_no_ws _ ?_
    intro c hc
    rcases List.mem_cons.mp hc with h | h
    · subst h; decide
    · exact hnws c h
  simp only [parseExpenseMessage, jsTrim, htrim, string_mk_data, hpre, if_true]
  simp only [jsSlice, hdrop, hmid]
  unfold splitWsTrimmed
  rw [show (⟨'@' :: (name.data ++ ' ' :: (a.data ++ ' ' :: d.data))⟩ : String).data
      = '@' :: (name.data ++ ' ' :: (a.data ++ ' ' :: d.data)) from rfl]
  rw [if_neg (by simp)]
  rw [hsplit]
  simp only [List.map_cons, List.map_nil]
  simp only [parseParts]
  rw [show jsTrim ⟨'@' :: name.data⟩ = ⟨'@' :: name.data⟩ by
    simp only [jsTrim]
    rw [hatok]]
  rw [if_neg (by simp)]
  rw [jsParseFloat_at_head name.data]
  rfl

theorem dropWhile_eq_self_of_all (p : Char → Bool) (l : List Char)
    (h : ∀ c ∈ l, p c = false) : l.dropWhile p = l := by
  cases l with
  | nil => rfl
  | cons c l' => exact dropWhile_of_head_false p c l' (h c (by simp))

theorem jsParseFloat_token (t : String) (ht : IsToken t) :
    jsParseFloat t =
      match parseDecCore t.data with
      | some (v, _) => v
      | none => JsNum.nan := by
  unfold jsParseFloat
  rw [dropWhile_eq_self_of_all _ _ ht.2]

theorem parseParts_single (today t : String) (u : Option String) (ht : IsToken t) :
    parseParts today [t] u =
      if jsIsNaN (jsParseFloat t) || jsLeZero (jsParseFloat t) then
        ParseResult.mk false none (some invalidAmountMsg)
      else ParseResult.mk true (some (Expense.mk today none (jsParseFloat t) "" u)) none := by
  simp only [parseParts]
  rw [show jsTrim t = t by
    simp only [jsTrim]
    rw [trimChars_of_no_ws t.data ht.2]]
  rw [if_neg (by simpa using ht.1)]
  simp

/-- C1, amended: the invalid-amount error occurs exactly when JavaScript
`parseFloat` of the first token, which parses the longest numeric prefix of
the token, yields `NaN` or a value that is not strictly positive.  `0` and
`-5` are rejected this way, and the error is distinct from the
missing-command-prefix error and from the missing-amount error.  (The claim
is wrong about `50abc`: `parseFloat` accepts its numeric prefix `50`, see
the counterexample.) -/
theorem C1_invalid_amount_iff_nan_or_nonpositive (today t : String) (u : Option String)
    (ht : IsToken t) :
    (parseExpenseMessage today ("/expense " ++ t) u
        = ParseResult.mk false none (some invalidAmountMsg)
      ↔ (jsIsNaN (jsParseFloat t) = true ∨ jsLeZero (jsParseFloat t) = true))
    ∧ parseExpenseMessage today "/expense 0" u = ParseResult.mk false none (some invalidAmountMsg)
    ∧ parseExpenseMessage today "/expense -5" u = ParseResult.mk false none (some invalidAmountMsg)
    ∧ parseExpenseMessage today "hello" u = ParseResult.mk false none (some missingPrefixMsg)
    ∧ parseExpenseMessage today "/expense" u = ParseResult.mk false none (some missingAmountMsg)
    ∧ invalidAmountMsg ≠ missingPrefixMsg
    ∧ invalidAmountMsg ≠ missingAmountMsg := by
  refine ⟨?_, by with_unfolding_all rfl, by with_unfolding_all rfl, by with_unfolding_all rfl,
    by with_unfolding_all rfl, by decide, by decide⟩
  rw [parse_message_expense_one today t u ht, parseParts_single today t u ht]
  cases h : (jsIsNaN (jsParseFloat t) || jsLeZero (jsParseFloat t)) with
  | true =>
    rw [if_pos rfl]
    exact iff_of_true rfl (by simpa using h)
  | false =>
    rw [if_neg (by simp)]
    simp only [Bool.or_eq_false_iff] at h
    constructor
    · intro hcontra
      exact absurd (congrArg ParseResult.success hcontra) (by simp)
    · intro hor
      exfalso
      rcases hor with h3 | h3
      · rw [h.1] at h3; cases h3
      · rw [h.2] at h3; cases h3

/-- C1 counterexample: the token `50abc` is not rejected — `parseFloat`
parses its numeric prefix, so `/expense 50abc` succeeds with amount `50`. -/
theorem C1_counterexample_50abc_accepted :
    parseExpenseMessage "2026-02-03" "/expense 50abc" none
      = ParseResult.mk true
          (some (Expense.mk "2026-02-03" none (JsNum.finite 50) "" none)) none := by
  with_unfolding_all decide

/-- C1 witness: the amended theorem applied at the token `0`. -/
theorem C1_witness :
    (parseExpenseMessage "2026-02-03" "/expense 0" none
        = ParseResult.mk false none (some invalidAmountMsg)
      ↔ (jsIsNaN (jsParseFloat "0") = true ∨ jsLeZero (jsParseFloat "0") = true))
    ∧ parseExpenseMessage "2026-02-03" "/expense 0" none
        = ParseResult.mk false none (some invalidAmountMsg)
    ∧ parseExpenseMessage "2026-02-03" "/expense -5" none
        = ParseResult.mk false none (some invalidAmountMsg)
    ∧ parseExpenseMessage "2026-02-03" "hello" none
        = ParseResult.mk false none (some missingPrefixMsg)
    ∧ parseExpenseMessage "2026-02-03" "/expense" none
        = ParseResult.mk false none (some missingAmountMsg)
    ∧ invalidAmountMsg ≠ missingPrefixMsg
    ∧ invalidAmountMsg ≠ missingAmountMsg := by
  have h := C1_invalid_amount_iff_nan_or_nonpositive "2026-02-03" "0" none (by decide)
  rw [show ("/expense " ++ "0") = "/expense 0" from rfl] at h
  exact h

/-- C2: for every token `s` that is, in full, a decimal literal with a
strictly positive value `q`, `/expense s groceries` succeeds with amount `q`
and description `groceries`; `/ex 500` succeeds with an empty description;
runs of internal whitespace collapse, so `/ex   500    food   here` yields
the description `food here`. -/
theorem C2_valid_amount_parses (today s : String) (u : Option String) (q : ℚ)
    (hs : IsToken s)
    (hq : parseDecCore s.data = some (JsNum.finite q, []))
    (hpos : 0 < q) :
    parseExpenseMessage today ("/expense " ++ s ++ " groceries") u
      = ParseResult.mk true (some (Expense.mk today none (JsNum.finite q) "groceries" u)) none
    ∧ parseExpenseMessage today "/ex 500" u
      = ParseResult.mk true (some (Expense.mk today none (JsNum.finite 500) "" u)) none
    ∧ parseExpenseMessage today "/ex   500    food   here" u
      = ParseResult.mk true (some (Expense.mk today none (JsNum.finite 500) "food here" u)) none := by
  refine ⟨?_, by with_unfolding_all rfl, by with_unfolding_all rfl⟩
  rw [show ("/expense " ++ s ++ " groceries") = ("/expense " ++ s ++ " " ++ "groceries") by
    apply String.ext
    simp [string_data_append]]
  rw [parse_message_expense_two today s "groceries" u hs ⟨by decide, by decide⟩]
  simp only [parseParts]
  rw [show jsTrim s = s by
    simp only [jsTrim]
    rw [trimChars_of_no_ws s.data hs.2]]
  rw [if_neg (by simpa using hs.1)]
  rw [show jsParseFloat s = JsNum.finite q by
    rw [jsParseFloat_token s hs, hq]]
  rw [if_neg (by
    simp only [jsIsNaN, jsLeZero, Bool.or_eq_true]
    rintro (h | h)
    · cases h
    · exact absurd (of_decide_eq_true h) (not_le.mpr hpos))]
  rw [show jsTrim (joinSpace ["groceries"]) = "groceries" from rfl]
  rfl

/-- C2 witness: the theorem applied at the decimal string `500`. -/
theorem C2_witness :
    parseExpenseMessage "2026-02-03" ("/expense " ++ "500" ++ " groceries") none
      = ParseResult.mk true
          (some (Expense.mk "2026-02-03" none (JsNum.finite 500) "groceries" none)) none
    ∧ parseExpenseMessage "2026-02-03" "/ex 500" none
      = ParseResult.mk true (some (Expense.mk "2026-02-03" none (JsNum.finite 500) "" none)) none
    ∧ parseExpenseMessage "2026-02-03" "/ex   500    food   here" none
      = ParseResult.mk true
          (some (Expense.mk "2026-02-03" none (JsNum.finite 500) "food here" none)) none :=
  C2_valid_amount_parses "2026-02-03" "500" none 500 (by decide)
    (by with_unfolding_all decide) (by with_unfolding_all decide)

/-- C5, amended: only the short alias strips a bot-username suffix.  For
every word-character bot name and tokens `a`, `d`, parsing `/ex@name a d`
gives the same result as parsing `/expense a d`; the long form
`/expense@name a d` is not stripped — `@name` stays in the token stream as
the amount token, and parsing fails with the invalid-amount error. -/
theorem C5_only_short_alias_strips_suffix (today name a d : String) (u : Option String)
    (hn : name.data ≠ []) (hwn : ∀ c ∈ name.data, isWordChar c = true)
    (ha : IsToken a) (hd : IsToken d) :
    parseExpenseMessage today ("/ex@" ++ name ++ " " ++ a ++ " " ++ d) u
      = parseExpenseMessage today ("/expense " ++ a ++ " " ++ d) u
    ∧ parseExpenseMessage today ("/expense@" ++ name ++ " " ++ a ++ " " ++ d) u
      = ParseResult.mk false none (some invalidAmountMsg) :=
  ⟨(parse_message_ex_at today name a d u hn hwn ha hd).trans
      (parse_message_expense_two today a d u ha hd).symm,
    parse_message_expense_at today name a d u hn hwn ha hd⟩

/-- C5 counterexample: the long form does not strip the suffix — with a bot
username attached, `/expense@mybot 50 food` fails with the invalid-amount
error while `/expense 50 food` succeeds, so the two parses differ. -/
theorem C5_counterexample_expense_at_not_stripped :
    parseExpenseMessage "2026-02-03" "/expense@mybot 50 food" none
      = ParseResult.mk false none (some invalidAmountMsg)
    ∧ parseExpenseMessage "2026-02-03" "/expense 50 food" none
      = ParseResult.mk true
          (some (Expense.mk "2026-02-03" none (JsNum.finite 50) "food" none)) none := by
  with_unfolding_all decide

/-- C5 witness: the amended theorem applied at the name `mybot` and the
tokens `50` and `food`. -/
theorem C5_witness :
    parseExpenseMessage "2026-02-03" ("/ex@" ++ "mybot" ++ " " ++ "50" ++ " " ++ "food") none
      = parseExpenseMessage "2026-02-03" ("/expense " ++ "50" ++ " " ++ "food") none
    ∧ parseExpenseMessage "2026-02-03" ("/expense@" ++ "mybot" ++ " " ++ "50" ++ " " ++ "food") none
      = ParseResult.mk false none (some invalidAmountMsg) :=
  C5_only_short_alias_strips_suffix "2026-02-03" "mybot" "50" "food" none
    (by decide) (by decide) (by decide) (by decide)

/-- C4: with a configured (truthy, hence nonzero) admin id `a`, the admin is
approved whatever the state of the approved-users set; the `/unapprove`
handler refuses to change the set when the target is the admin; and after
any `/unapprove` transition whatsoever the admin is still approved. -/
theorem C4_admin_always_approved (approvedUsers : List ℤ) (a : ℤ) (ha : a ≠ 0)
    (senderId : Option ℤ) (target : Option ℤ) :
    isUserApproved approvedUsers a (some a) = true
    ∧ unapproveHandler approvedUsers (some a) senderId (some a) = approvedUsers
    ∧ isUserApproved (unapproveHandler approvedUsers (some a) senderId target) a (some a)
        = true := by
  have happroved : ∀ s : List ℤ, isUserApproved s a (some a) = true := by
    intro s
    unfold isUserApproved
    show (if a ≠ 0 ∧ a = a then true else s.contains a) = true
    rw [if_pos ⟨ha, rfl⟩]
  refine ⟨happroved approvedUsers, ?_, happroved _⟩
  unfold unapproveHandler
  cases isAdmin senderId (some a) with
  | false => rw [if_neg (by simp)]
  | true =>
    rw [if_pos rfl]
    show (if a ≠ 0 then
        if some a = some a then approvedUsers else removeApproval approvedUsers a
      else approvedUsers) = approvedUsers
    rw [if_pos ha, if_pos rfl]

/-- C4 witness: the theorem applied at a concrete set, admin id, sender and
target. -/
theorem C4_witness :
    isUserApproved [5] 7 (some 7) = true
    ∧ unapproveHandler [5] (some 7) (some 7) (some 7) = [5]
    ∧ isUserApproved (unapproveHandler [5] (some 7) (some 7) (some 5)) 7 (some 7) = true :=
  C4_admin_always_approved [5] 7 (by decide) (some 7) (some 5)

theorem findSubstrAux_of_isPrefixOf (pat hay : List Char) (i : ℕ)
    (h : pat.isPrefixOf hay = true) : findSubstrAux pat hay i = some i := by
  cases hay <;> simp [findSubstrAux, h]

theorem lastIndexOfChar_eq_none (c : Char) (l : List Char) (h : c ∉ l) :
    lastIndexOfChar c l = none := by
  induction l with
  | nil => rfl
  | cons a rest ih =>
    have hrest : c ∉ rest := fun hm => h (by simp [hm])
    have hne : a ≠ c := fun he => h (by simp [he])
    simp [lastIndexOfChar, ih hrest, hne]

theorem lastIndexOfChar_append (c : Char) (xs t : List Char) (h : c ∉ t) :
    lastIndexOfChar c (xs ++ c :: t) = some xs.length := by
  induction xs with
  | nil => simp [lastIndexOfChar, lastIndexOfChar_eq_none c t h]
  | cons a rest ih => simp [lastIndexOfChar, ih]

/-- C9: for every catalog type `t` and correlation id `c` containing an
underscore (the handler builds it as `chatId_timestamp`), decoding the
encoded callback `exp_type_<c>_<t>` recovers exactly the pair `(c, t)`;
this holds because no name of the type catalog contains an underscore. -/
theorem C9_callback_roundtrip (c t : String) (_hc : '_' ∈ c.data)
    (ht : t ∈ EXPENSE_TYPES) :
    decodeTypeCallback (encodeTypeCallback c t) = some (c, t)
    ∧ ∀ ty ∈ EXPENSE_TYPES, '_' ∉ ty.data := by
  have hnu : '_' ∉ t.data := by fin_cases ht <;> decide
  refine ⟨?_, by decide⟩
  have hdata : (encodeTypeCallback c t).data
      = "exp_type_".data ++ (c.data ++ '_' :: t.data) := by
    unfold encodeTypeCallback
    simp only [string_data_append]
    simp [show "_".data = ['_'] from rfl]
  have hpre : jsStartsWith (encodeTypeCallback c t) "exp_type_" = true := by
    unfold jsStartsWith
    rw [hdata]
    exact list_isPrefixOf_self_append _ _
  have hrepl : (jsReplaceFirst (encodeTypeCallback c t) "exp_type_").data
      = c.data ++ '_' :: t.data := by
    unfold jsReplaceFirst
    rw [hdata, findSubstrAux_of_isPrefixOf _ _ 0 (list_isPrefixOf_self_append _ _)]
    simp only [List.take_zero, List.nil_append, Nat.zero_add]
    rw [show ("exp_type_".data).length = 9 from rfl,
      show ("exp_type_".data ++ (c.data ++ '_' :: t.data) : List Char).drop 9
        = c.data ++ '_' :: t.data from List.drop_left' (by decide)]
  have hlast : lastIndexOfChar '_' (jsReplaceFirst (encodeTypeCallback c t) "exp_type_").data
      = some c.data.length := by
    rw [hrepl]
    exact lastIndexOfChar_append '_' c.data t.data hnu
  unfold decodeTypeCallback
  rw [hpre, if_pos rfl, hlast]
  show some
      ((⟨(jsReplaceFirst (encodeTypeCallback c t) "exp_type_").data.take c.data.length⟩ : String),
        (⟨(jsReplaceFirst (encodeTypeCallback c t) "exp_type_").data.drop (c.data.length + 1)⟩ :
          String))
    = some (c, t)
  rw [hrepl, show c.data ++ '_' :: t.data = (c.data ++ ['_']) ++ t.data by simp]
  rw [List.drop_left' (show (c.data ++ ['_']).length = c.data.length + 1 by simp)]
  rw [show ((c.data ++ ['_']) ++ t.data).take c.data.length = c.data by
    rw [show (c.data ++ ['_']) ++ t.data = c.data ++ (['_'] ++ t.data) by simp]
    exact List.take_left c.data _]

/-- C9 witness: the round trip applied at the id `123_456` and the type
`Super Market`. -/
theorem C9_witness :
    decodeTypeCallback (encodeTypeCallback "123_456" "Super Market")
      = some ("123_456", "Super Market")
    ∧ ∀ ty ∈ EXPENSE_TYPES, '_' ∉ ty.data :=
  C9_callback_roundtrip "123_456" "Super Market" (by decide) (by decide)

/-! ## Pointwise lemmas about the grid operations -/

theorem getD_set_self {α : Type} (l : List α) (i : ℕ) (a d : α) (h : i < l.length) :
    (l.set i a).getD i d = a := by
  rw [List.getD_eq_getElem?_getD, List.getElem?_set_self h]
  rfl

theorem getD_set_ne {α : Type} (l : List α) (i j : ℕ) (a d : α) (h : i ≠ j) :
    (l.set i a).getD j d = l.getD j d := by
  rw [List.getD_eq_getElem?_getD, List.getElem?_set, if_neg h, ← List.getD_eq_getElem?_getD]

theorem padTo_getD_default {α : Type} (l : List α) (n : ℕ) (x : α) (i : ℕ) :
    (padTo l n x).getD i x = l.getD i x := by
  unfold padTo
  rw [List.getD_eq_getElem?_getD, List.getD_eq_getElem?_getD, List.getElem?_append]
  by_cases h : i < l.length
  · rw [if_pos h]
  · rw [if_neg h, List.getElem?_replicate,
      show l[i]? = none from List.getElem?_eq_none (by omega)]
    by_cases h2 : i - l.length < n - l.length
    · rw [if_pos h2]
      rfl
    · rw [if_neg h2]

theorem padTo_length {α : Type} (l : List α) (n : ℕ) (x : α) :
    (padTo l n x).length = max l.length n := by
  unfold padTo
  simp
  omega

theorem getCell_setCell_same (g : Grid) (r c : ℕ) (v : CellValue) :
    getCell (setCell g r c v) r c = v := by
  simp only [setCell, getCell]
  rw [getD_set_self _ _ _ _ (by rw [padTo_length]; omega)]
  rw [getD_set_self _ _ _ _ (by rw [padTo_length]; omega)]

theorem getCell_setCell_ne (g : Grid) (r c : ℕ) (v : CellValue) (r' c' : ℕ)
    (h : r' ≠ r ∨ c' ≠ c) :
    getCell (setCell g r c v) r' c' = getCell g r' c' := by
  simp only [setCell, getCell]
  rcases eq_or_ne r' r with hr | hr
  · subst hr
    have hc : c ≠ c' := fun he => (h.resolve_left (by simp)) he.symm
    rw [getD_set_self _ _ _ _ (by rw [padTo_length]; omega)]
    rw [getD_set_ne _ _ _ _ _ hc]
    rw [padTo_getD_default, padTo_getD_default]
  · rw [getD_set_ne _ _ _ _ _ (Ne.symm hr), padTo_getD_default]

theorem getCell_writeRowCells_ne_row (g : Grid) (r c : ℕ) (vs : List CellValue)
    (r' c' : ℕ) (h : r' ≠ r) :
    getCell (writeRowCells g r c vs) r' c' = getCell g r' c' := by
  induction vs generalizing g c with
  | nil => rfl
  | cons v vs ih =>
    unfold writeRowCells
    rw [ih (setCell g r c v) (c + 1), getCell_setCell_ne g r c v r' c' (Or.inl h)]

theorem getCell_writeRowCells_lt_col (g : Grid) (r c : ℕ) (vs : List CellValue)
    (r' c' : ℕ) (h : c' < c) :
    getCell (writeRowCells g r c vs) r' c' = getCell g r' c' := by
  induction vs generalizing g c with
  | nil => rfl
  | cons v vs ih =>
    unfold writeRowCells
    rw [ih (setCell g r c v) (c + 1) (by omega),
      getCell_setCell_ne g r c v r' c' (Or.inr (by omega))]

theorem getCell_writeRowCells_head (g : Grid) (r c : ℕ) (v : CellValue) (vs : List CellValue) :
    getCell (writeRowCells g r c (v :: vs)) r c = v := by
  unfold writeRowCells
  rw [getCell_writeRowCells_lt_col (setCell g r c v) r (c + 1) vs r c (by omega),
    getCell_setCell_same]

theorem getCell_writeRect_ne_rows (g : Grid) (r c : ℕ) (rows : List (List CellValue))
    (r' c' : ℕ) (h : r' < r ∨ r + rows.length ≤ r') :
    getCell (writeRect g r c rows) r' c' = getCell g r' c' := by
  induction rows generalizing g r with
  | nil => rfl
  | cons row rows ih =>
    unfold writeRect
    have hlen : (row :: rows).length = rows.length + 1 := by simp
    rw [hlen] at h
    have hnext : r' < r + 1 ∨ (r + 1) + rows.length ≤ r' := by omega
    have hne : r' ≠ r := by omega
    rw [ih (writeRowCells g r c row) (r + 1) hnext,
      getCell_writeRowCells_ne_row g r c row r' c' hne]

theorem getCell_writeRect_lt_col (g : Grid) (r c : ℕ) (rows : List (List CellValue))
    (r' c' : ℕ) (h : c' < c) :
    getCell (writeRect g r c rows) r' c' = getCell g r' c' := by
  induction rows generalizing g r with
  | nil => rfl
  | cons row rows ih =>
    unfold writeRect
    rw [ih (writeRowCells g r c row) (r + 1),
      getCell_writeRowCells_lt_col g r c row r' c' h]

theorem getCell_writeRect_single_head (g : Grid) (r c : ℕ) (v : CellValue)
    (vs : List CellValue) :
    getCell (writeRect g r c [v :: vs]) r c = v := by
  show getCell (writeRect (writeRowCells g r c (v :: vs)) (r + 1) c []) r c = v
  show getCell (writeRowCells g r c (v :: vs)) r c = v
  exact getCell_writeRowCells_head g r c v vs

theorem getCell_clearColsAZ (g : Grid) (r c : ℕ) (h : c < 26) :
    getCell (clearColsAZ g) r c = CellValue.empty := by
  unfold clearColsAZ getCell
  rw [List.getD_eq_getElem?_getD, List.getD_eq_getElem?_getD, List.getElem?_map]
  cases hrow : g[r]? with
  | none => rfl
  | some row =>
    show (clearRowCols row 26)[c]?.getD CellValue.empty = CellValue.empty
    unfold clearRowCols
    rw [List.getElem?_append]
    by_cases hlt : c < ((row.take 26).map (fun _ => CellValue.empty)).length
    · rw [if_pos hlt, List.getElem?_map]
      cases htake : (row.take 26)[c]? with
      | none =>
        rw [List.getElem?_eq_none_iff] at htake
        simp only [List.length_map] at hlt
        omega
      | some x => rfl
    · rw [if_neg hlt, List.getElem?_drop]
      simp only [List.length_map, List.length_take] at hlt
      rw [show row[26 + (c - (List.map (fun _ => CellValue.empty) (List.take 26 row)).length)]?
          = none from List.getElem?_eq_none (by simp; omega)]
      rfl

/-! ## Lemmas about tabs and the backend primitives -/

theorem sheetExists_eq_true_iff (sp : Spreadsheet) (name : String) :
    sheetExists sp name = true ↔ name ∈ sheetTitles sp := by
  unfold sheetExists sheetTitles
  simp only [List.any_eq_true, beq_iff_eq, List.mem_map]

theorem find?_modList (n : String) (f : Grid → Grid) (tabs : List SheetTab) :
    (tabs.map (fun t => if t.title == n then SheetTab.mk t.title (f t.cells) else t)).find?
        (fun t => t.title == n)
      = Option.map (fun t => SheetTab.mk t.title (f t.cells))
          (tabs.find? (fun t => t.title == n)) := by
  induction tabs with
  | nil => rfl
  | cons t ts ih =>
    by_cases h : (t.title == n) = true
    · rw [List.map_cons, if_pos h,
        @List.find?_cons_of_pos _ (fun x => x.title == n) (SheetTab.mk t.title (f t.cells)) _ h,
        @List.find?_cons_of_pos _ (fun x => x.title == n) t _ h, Option.map_some']
    · rw [List.map_cons, if_neg h]
      rw [@List.find?_cons_of_neg _ (fun x => x.title == n) t _ h]
      rw [@List.find?_cons_of_neg _ (fun x => x.title == n) t _ h]
      exact ih

theorem findTab_modifyTab (sp : Spreadsheet) (n : String) (f : Grid → Grid) :
    findTab (modifyTab sp n f) n
      = Option.map (fun t => SheetTab.mk t.title (f t.cells)) (findTab sp n) := by
  cases sp with
  | mk tabs => exact find?_modList n f tabs

theorem getSheetCell_modifyTab (sp : Spreadsheet) (n : String) (f : Grid → Grid) (r c : ℕ) :
    getSheetCell (modifyTab sp n f) n r c
      = (match findTab sp n with
        | some t => getCell (f t.cells) r c
        | none => CellValue.empty) := by
  unfold getSheetCell
  rw [findTab_modifyTab]
  cases findTab sp n <;> rfl

theorem sheetTitles_modifyTab (sp : Spreadsheet) (n : String) (f : Grid → Grid) :
    sheetTitles (modifyTab sp n f) = sheetTitles sp := by
  cases sp with
  | mk tabs =>
    unfold sheetTitles modifyTab
    simp only [List.map_map]
    apply List.map_congr_left
    intro t _
    simp only [Function.comp_apply]
    by_cases h : (t.title == n) = true
    · rw [if_pos h]
    · rw [if_neg h]

theorem sheetExists_eq_of_titles (sp1 sp2 : Spreadsheet) (h : sheetTitles sp1 = sheetTitles sp2)
    (m : String) : sheetExists sp1 m = sheetExists sp2 m := by
  rcases hb : sheetExists sp2 m with _ | _
  · rcases hb1 : sheetExists sp1 m with _ | _
    · rfl
    · exfalso
      have := (sheetExists_eq_true_iff sp1 m).mp hb1
      rw [h] at this
      rw [(sheetExists_eq_true_iff sp2 m).mpr this] at hb
      cases hb
  · exact (sheetExists_eq_true_iff sp1 m).mpr (h ▸ (sheetExists_eq_true_iff sp2 m).mp hb)

theorem sheetExists_modifyTab (sp : Spreadsheet) (n : String) (f : Grid → Grid) (m : String) :
    sheetExists (modifyTab sp n f) m = sheetExists sp m :=
  sheetExists_eq_of_titles _ _ (sheetTitles_modifyTab sp n f) m

theorem modifyTab_modifyTab (sp : Spreadsheet) (n : String) (f g : Grid → Grid) :
    modifyTab (modifyTab sp n f) n g = modifyTab sp n (fun cells => g (f cells)) := by
  cases sp with
  | mk tabs =>
    unfold modifyTab
    simp only [Spreadsheet.mk.injEq, List.map_map]
    apply List.map_congr_left
    intro t _
    simp only [Function.comp_apply]
    by_cases h : (t.title == n) = true
    · rw [if_pos h, if_pos h, if_pos h]
    · rw [if_neg h, if_neg h, if_neg h]

/-! ## Evaluation lemmas for the backend operations -/

theorem valuesUpdate_ok (f : Faults) (n : String) (r c : ℕ) (rows : List (List CellValue))
    (s : ServiceState) (hf : f.updateFails n r c = false) (hp : sheetExists s.sheet n = true) :
    valuesUpdate f n r c rows s
      = (.ok (), { s with sheet := modifyTab s.sheet n (fun g => writeRect g r c rows) }) := by
  unfold valuesUpdate
  rw [hf]
  rw [if_neg (by simp), hp, if_pos rfl]

theorem valuesUpdate_err (f : Faults) (n : String) (r c : ℕ) (rows : List (List CellValue))
    (s : ServiceState) (hf : f.updateFails n r c = true) :
    valuesUpdate f n r c rows s = (.error "update failed", s) := by
  unfold valuesUpdate
  rw [hf, if_pos rfl]

theorem valuesUpdate_target (f : Faults) (n : String) (r c : ℕ) (rows : List (List CellValue))
    (s : ServiceState) :
    (valuesUpdate f n r c rows s).2.targetExpense = s.targetExpense := by
  unfold valuesUpdate
  split
  · rfl
  · split
    · rfl
    · rfl

theorem valuesUpdate_titles (f : Faults) (n : String) (r c : ℕ) (rows : List (List CellValue))
    (s : ServiceState) :
    sheetTitles (valuesUpdate f n r c rows s).2.sheet = sheetTitles s.sheet := by
  unfold valuesUpdate
  split
  · rfl
  · split
    · exact sheetTitles_modifyTab _ _ _
    · rfl

theorem tryFormat_eq (f : Faults) (n : String) (r c : ℕ) (s : ServiceState) :
    tryFormat f n r c s = (.ok (), s) := by
  unfold tryFormat batchUpdateFormat
  split
  · by_cases hf : f.formatFails n r c = true
    · rw [if_pos hf]
    · rw [if_neg hf]
  · rfl

theorem applySheetFormatting_eq (f : Faults) (n : String) (s : ServiceState) :
    applySheetFormatting f n s = (.ok (), s) := by
  unfold applySheetFormatting batchUpdateFormat
  split
  · by_cases hf : f.formatFails n 3 5 = true
    · rw [if_pos hf]
    · rw [if_neg hf]
  · rfl

theorem initializeTypeBreakdown_eq (f : Faults) (n : String) (s : ServiceState) :
    initializeTypeBreakdown f n s = (.ok (), (valuesUpdate f n 13 5 breakdownRows s).2) := by
  unfold initializeTypeBreakdown
  rcases hu : valuesUpdate f n 13 5 breakdownRows s with ⟨r1, s1⟩
  cases r1 with
  | error e => rfl
  | ok _ =>
    show (match tryFormat f n 13 6 s1 with
      | (_, s2) => ((Except.ok () : Except String Unit), s2)) = (Except.ok (), s1)
    rw [tryFormat_eq]

theorem valuesUpdate_target_of_eq (f : Faults) (n : String) (r c : ℕ)
    (rows : List (List CellValue)) (s : ServiceState) (p : Except String Unit × ServiceState)
    (h : valuesUpdate f n r c rows s = p) : p.2.targetExpense = s.targetExpense := by
  rw [← h]
  exact valuesUpdate_target f n r c rows s

theorem valuesUpdate_titles_of_eq (f : Faults) (n : String) (r c : ℕ)
    (rows : List (List CellValue)) (s : ServiceState) (p : Except String Unit × ServiceState)
    (h : valuesUpdate f n r c rows s = p) :
    sheetTitles p.2.sheet = sheetTitles s.sheet := by
  rw [← h]
  exact valuesUpdate_titles f n r c rows s

theorem initializeSheetStructure_target (f : Faults) (n : String) (s : ServiceState) :
    (initializeSheetStructure f n s).2.targetExpense = s.targetExpense := by
  unfold initializeSheetStructure
  simp only [tryFormat_eq, initializeTypeBreakdown_eq, applySheetFormatting_eq]
  split
  · rename_i e s1 heq
    exact valuesUpdate_target_of_eq _ _ _ _ _ _ _ heq
  · rename_i a s1 heq
    have t1 := valuesUpdate_target_of_eq _ _ _ _ _ _ _ heq
    split
    · rename_i e s2 heq2
      exact (valuesUpdate_target_of_eq _ _ _ _ _ _ _ heq2).trans t1
    · rename_i a2 s2 heq2
      have t2 := valuesUpdate_target_of_eq _ _ _ _ _ _ _ heq2
      split
      · rename_i e s4 heq3
        exact (valuesUpdate_target_of_eq _ _ _ _ _ _ _ heq3).trans (t2.trans t1)
      · rename_i a3 s4 heq3
        have t3 := valuesUpdate_target_of_eq _ _ _ _ _ _ _ heq3
        have t4 := valuesUpdate_target f n 13 5 breakdownRows s4
        exact t4.trans (t3.trans (t2.trans t1))

theorem initializeSheetStructure_titles (f : Faults) (n : String) (s : ServiceState) :
    sheetTitles (initializeSheetStructure f n s).2.sheet = sheetTitles s.sheet := by
  unfold initializeSheetStructure
  simp only [tryFormat_eq, initializeTypeBreakdown_eq, applySheetFormatting_eq]
  split
  · rename_i e s1 heq
    exact valuesUpdate_titles_of_eq _ _ _ _ _ _ _ heq
  · rename_i a s1 heq
    have t1 := valuesUpdate_titles_of_eq _ _ _ _ _ _ _ heq
    split
    · rename_i e s2 heq2
      exact (valuesUpdate_titles_of_eq _ _ _ _ _ _ _ heq2).trans t1
    · rename_i a2 s2 heq2
      have t2 := valuesUpdate_titles_of_eq _ _ _ _ _ _ _ heq2
      split
      · rename_i e s4 heq3
        exact (valuesUpdate_titles_of_eq _ _ _ _ _ _ _ heq3).trans (t2.trans t1)
      · rename_i a3 s4 heq3
        have t3 := valuesUpdate_titles_of_eq _ _ _ _ _ _ _ heq3
        have t4 := valuesUpdate_titles f n 13 5 breakdownRows s4
        exact t4.trans (t3.trans (t2.trans t1))

theorem initializeSheetStructure_noFaults (n : String) (s : ServiceState)
    (hp : sheetExists s.sheet n = true) :
    initializeSheetStructure noFaults n s
      = (.ok (), { s with sheet := modifyTab s.sheet n (initStructureWrites s.targetExpense) }) := by
  simp only [initializeSheetStructure, tryFormat_eq, initializeTypeBreakdown_eq,
    applySheetFormatting_eq, valuesUpdate_ok, noFaults, sheetExists_modifyTab, hp,
    modifyTab_modifyTab]
  rfl

theorem noFaults_updateFails (n : String) (r c : ℕ) : noFaults.updateFails n r c = false := rfl

theorem noFaults_formatFails (n : String) (r c : ℕ) : noFaults.formatFails n r c = false := rfl

theorem noFaults_addSheetDuplicate : noFaults.addSheetDuplicate = false := rfl

theorem ensureMonthlySheetExists_present (f : Faults) (n : String) (s : ServiceState)
    (hp : sheetExists s.sheet n = true) :
    ensureMonthlySheetExists f n s = (.ok (), s) := by
  unfold ensureMonthlySheetExists
  rw [hp, if_pos rfl]

theorem sheetExists_append_self (tabs : List SheetTab) (n : String) (g : Grid) :
    sheetExists ⟨tabs ++ [⟨n, g⟩]⟩ n = true := by
  rw [sheetExists_eq_true_iff]
  unfold sheetTitles
  simp

theorem ensureMonthlySheetExists_dup (f : Faults) (n : String) (s : ServiceState)
    (hp : sheetExists s.sheet n = false) (hd : f.addSheetDuplicate = true) :
    ensureMonthlySheetExists f n s
      = (.error ("A sheet with the name " ++ n ++ " already exists"), s) := by
  simp only [ensureMonthlySheetExists, hp, Bool.false_eq_true, if_false, addSheet, hd, if_true]

theorem ensureMonthlySheetExists_noFaults_absent (n : String) (s : ServiceState)
    (hp : sheetExists s.sheet n = false) :
    ensureMonthlySheetExists noFaults n s
      = (.ok (), { s with
          sheet := modifyTab ⟨s.sheet.tabs ++ [⟨n, []⟩]⟩ n
            (initStructureWrites s.targetExpense) }) := by
  simp only [ensureMonthlySheetExists, hp, Bool.false_eq_true, if_false, addSheet,
    noFaults_addSheetDuplicate, if_true]
  rw [initializeSheetStructure_noFaults n _ (sheetExists_append_self s.sheet.tabs n [])]

theorem addSheet_target (f : Faults) (n : String) (s : ServiceState) :
    (addSheet f n s).2.targetExpense = s.targetExpense := by
  unfold addSheet
  split
  · rfl
  · split
    · rfl
    · rfl

theorem ensureMonthlySheetExists_target (f : Faults) (n : String) (s : ServiceState) :
    (ensureMonthlySheetExists f n s).2.targetExpense = s.targetExpense := by
  unfold ensureMonthlySheetExists
  split
  · rfl
  · split
    · rename_i e s1 heq
      have h := addSheet_target f n s
      rw [heq] at h
      exact h
    · rename_i a s1 heq
      have h := addSheet_target f n s
      rw [heq] at h
      exact (initializeSheetStructure_target f n s1).trans h

/-- C10: whenever `resetSheetToInitialState` reports success, the in-memory
default target (`this.targetExpense`) is restored to its value from before
the call — the reset's target only reaches the sheet, under any injected
backend faults. -/
theorem C10_reset_restores_target (f : Faults) (name : String) (T : ℚ)
    (s : ServiceState) (r : ResetResult) (st' : ServiceState)
    (h : resetSheetToInitialState f name T s = (r, st'))
    (hs : r.success = true) :
    st'.targetExpense = s.targetExpense := by
  simp only [resetSheetToInitialState] at h
  split at h
  · split at h
    · cases h
      rfl
    · cases h
      simp at hs
  · split at h
    · cases h
      simp at hs
    · split at h
      · cases h
        simp at hs
      · cases h
        rfl

/-- C10 witness: a concrete fault-free reset restores the stored default
target `7`. -/
theorem C10_witness :
    (resetSheetToInitialState noFaults "Feb 2026" 150000
        ⟨⟨[]⟩, 7⟩).2.targetExpense = 7 :=
  C10_reset_restores_target noFaults "Feb 2026" 150000 ⟨⟨[]⟩, 7⟩
    (resetSheetToInitialState noFaults "Feb 2026" 150000 ⟨⟨[]⟩, 7⟩).1
    (resetSheetToInitialState noFaults "Feb 2026" 150000 ⟨⟨[]⟩, 7⟩).2
    rfl (by with_unfolding_all decide)

/-- C3, amended: `ensureMonthlySheetExists` is idempotent — a no-op when
the tab is present, creating and fully initializing it when absent, with a
fault-free second call a no-op — but a duplicate-tab-name failure of the
create step (the two-concurrent-callers race) is rethrown to the caller,
not absorbed as a benign already-exists outcome. -/
theorem C3_ensure_idempotent_duplicate_fatal (f : Faults) (name : String) (st : ServiceState) :
    (sheetExists st.sheet name = true → ensureMonthlySheetExists f name st = (.ok (), st))
    ∧ (∀ st', ensureMonthlySheetExists noFaults name st = (.ok (), st') →
        ensureMonthlySheetExists noFaults name st' = (.ok (), st'))
    ∧ (sheetExists st.sheet name = false → f.addSheetDuplicate = true →
        (ensureMonthlySheetExists f name st).1
          = .error ("A sheet with the name " ++ name ++ " already exists")) := by
  refine ⟨fun hp => ensureMonthlySheetExists_present f name st hp, ?_, ?_⟩
  · intro st' h
    rcases hp : sheetExists st.sheet name with _ | _
    · rw [ensureMonthlySheetExists_noFaults_absent name st hp] at h
      have hst : st' = { st with
          sheet := modifyTab ⟨st.sheet.tabs ++ [⟨name, []⟩]⟩ name
            (initStructureWrites st.targetExpense) } := by
        cases h
        rfl
      subst hst
      apply ensureMonthlySheetExists_present
      show sheetExists (modifyTab ⟨st.sheet.tabs ++ [⟨name, []⟩]⟩ name
        (initStructureWrites st.targetExpense)) name = true
      rw [sheetExists_modifyTab]
      exact sheetExists_append_self st.sheet.tabs name []
    · rw [ensureMonthlySheetExists_present noFaults name st hp] at h
      have hst : st' = st := by
        cases h
        rfl
      subst hst
      exact ensureMonthlySheetExists_present noFaults name _ hp
  · intro hp hd
    rw [ensureMonthlySheetExists_dup f name st hp hd]

/-- C3 counterexample: with no tab present and the duplicate-create race
injected, `ensureMonthlySheetExists` returns the duplicate-tab-name error
to its caller instead of absorbing it. -/
theorem C3_counterexample_duplicate_propagates :
    (ensureMonthlySheetExists ⟨fun _ _ _ => false, fun _ _ _ => false, true⟩ "Feb 2026"
        ⟨⟨[]⟩, 0⟩).1
      = .error ("A sheet with the name " ++ "Feb 2026" ++ " already exists") := by
  with_unfolding_all rfl

/-- C3 witness: the amended theorem applied at a concrete state where the
tab already exists (the no-op branch). -/
theorem C3_witness :
    ensureMonthlySheetExists noFaults "Feb 2026" ⟨⟨[⟨"Feb 2026", []⟩]⟩, 0⟩
      = (.ok (), ⟨⟨[⟨"Feb 2026", []⟩]⟩, 0⟩) :=
  (C3_ensure_idempotent_duplicate_fatal noFaults "Feb 2026" ⟨⟨[⟨"Feb 2026", []⟩]⟩, 0⟩).1
    (by decide)

theorem amountSum_eq_foldl (es : List Expense) :
    amountSum es = es.foldl (fun acc e => jsAdd acc e.amount) (JsNum.finite 0) := by
  unfold amountSum
  rw [List.foldl_map]

theorem getExpensesFromSheet_eq (name : String) (s : ServiceState) :
    getExpensesFromSheet name s = (.ok (expensesOfTab s.sheet name), s) := by
  unfold getExpensesFromSheet valuesGetRows expensesOfTab
  cases findTab s.sheet name <;> rfl

theorem contains_sheetTitles (sp : Spreadsheet) (m : String) :
    (sheetTitles sp).contains m = sheetExists sp m := by
  rw [Bool.eq_iff_iff, List.elem_iff, sheetExists_eq_true_iff]

theorem findTab_eq_none_of_not_exists (sp : Spreadsheet) (n : String)
    (h : sheetExists sp n = false) : findTab sp n = none := by
  unfold findTab
  rw [List.find?_eq_none]
  intro t ht hbeq
  have : sheetExists sp n = true := by
    unfold sheetExists
    rw [List.any_eq_true]
    exact ⟨t, ht, hbeq⟩
  rw [this] at h
  cases h

theorem findTab_isSome_of_exists (sp : Spreadsheet) (n : String)
    (h : sheetExists sp n = true) : ∃ tab, findTab sp n = some tab := by
  unfold sheetExists at h
  rw [List.any_eq_true] at h
  obtain ⟨t, ht, hbeq⟩ := h
  have : (findTab sp n).isSome = true := by
    unfold findTab
    rw [List.find?_isSome]
    exact ⟨t, ht, hbeq⟩
  cases hf : findTab sp n with
  | none => rw [hf] at this; cases this
  | some tab => exact ⟨tab, rfl⟩

theorem getAllExpenses_eq (month : Fin 12) (year : ℕ) (s : ServiceState) :
    getAllExpenses month year s
      = (.ok (expensesOfTab s.sheet (getMonthlySheetName month year)), s) := by
  unfold getAllExpenses getAllSheetNames
  show (if (sheetTitles s.sheet).contains (getMonthlySheetName month year) = true then _ else _)
    = _
  rw [contains_sheetTitles]
  rcases hp : sheetExists s.sheet (getMonthlySheetName month year) with _ | _
  · rw [if_neg (by simp)]
    unfold expensesOfTab
    rw [findTab_eq_none_of_not_exists s.sheet _ hp]
  · rw [if_pos rfl]
    obtain ⟨tab, htab⟩ := findTab_isSome_of_exists s.sheet _ hp
    unfold valuesGetRows expensesOfTab
    rw [htab]

theorem getAllMonthlyExpensesLoop_eq (names : List String) (acc : List Expense)
    (s : ServiceState) :
    getAllMonthlyExpensesLoop names acc s
      = (.ok (acc ++ names.flatMap (fun n => expensesOfTab s.sheet n)), s) := by
  induction names generalizing acc with
  | nil => simp [getAllMonthlyExpensesLoop]
  | cons n ns ih =>
    unfold getAllMonthlyExpensesLoop
    simp only [getExpensesFromSheet_eq]
    rw [ih (acc ++ expensesOfTab s.sheet n)]
    simp [List.flatMap_cons, List.append_assoc]

theorem getAllMonthlyExpenses_eq (s : ServiceState) :
    getAllMonthlyExpenses s
      = (.ok (((sheetTitles s.sheet).filter isMonthlySheetName).flatMap
          (fun n => expensesOfTab s.sheet n)), s) := by
  unfold getAllMonthlyExpenses getAllSheetNames
  show getAllMonthlyExpensesLoop ((sheetTitles s.sheet).filter isMonthlySheetName) [] s = _
  rw [getAllMonthlyExpensesLoop_eq]
  simp

/-- C6: both totals are computed, at call time and without mutating any
state, as the sum of the amount fields over the rows their respective read
operation returns; the all-months read keeps exactly the tab names matching
the monthly `Mon YYYY` pattern and concatenates the per-tab rows in listing
order, preserving per-tab row order. -/
theorem C6_totals_sum_read_rows (month : Fin 12) (year : ℕ) (st : ServiceState) :
    (getTotalExpenses month year st).1
        = Except.map amountSum (getAllExpenses month year st).1
    ∧ (getTotalExpenses month year st).2 = st
    ∧ (getAllExpenses month year st).2 = st
    ∧ (getTotalAllExpenses st).1 = Except.map amountSum (getAllMonthlyExpenses st).1
    ∧ (getTotalAllExpenses st).2 = st
    ∧ (getAllMonthlyExpenses st).1
        = .ok (((sheetTitles st.sheet).filter isMonthlySheetName).flatMap
            (fun n => expensesOfTab st.sheet n))
    ∧ (getAllMonthlyExpenses st).2 = st
    ∧ (∀ name, getExpensesFromSheet name st = (.ok (expensesOfTab st.sheet name), st)) := by
  refine ⟨?_, ?_, ?_, ?_, ?_, ?_, ?_, fun name => getExpensesFromSheet_eq name st⟩
  · unfold getTotalExpenses
    rw [getAllExpenses_eq]
    simp [Except.map, amountSum_eq_foldl]
  · unfold getTotalExpenses
    rw [getAllExpenses_eq]
  · rw [getAllExpenses_eq]
  · unfold getTotalAllExpenses
    rw [getAllMonthlyExpenses_eq]
    simp [Except.map, amountSum_eq_foldl]
  · unfold getTotalAllExpenses
    rw [getAllMonthlyExpenses_eq]
  · rw [getAllMonthlyExpenses_eq]
  · rw [getAllMonthlyExpenses_eq]

/-- C7, amended: during `initializeSheetStructure`, failures of the
cosmetic cell-formatting steps are non-fatal, and a failure of the
breakdown labels-and-formulas write is likewise swallowed (logged inside
`initializeTypeBreakdown`, which never rethrows); only the three
`values.update` writes of the summary header labels, the summary values,
and the ledger header labels are fatal and abort the initialization. -/
theorem C7_only_three_writes_fatal (f : Faults) (name : String) (st : ServiceState)
    (hp : sheetExists st.sheet name = true) :
    (f.updateFails name 3 5 = false → f.updateFails name 4 5 = false →
      f.updateFails name 4 0 = false →
      ∃ st', initializeSheetStructure f name st = (.ok (), st'))
    ∧ (f.updateFails name 3 5 = true →
        (initializeSheetStructure f name st).1 = .error "update failed")
    ∧ (f.updateFails name 3 5 = false → f.updateFails name 4 5 = true →
        (initializeSheetStructure f name st).1 = .error "update failed")
    ∧ (f.updateFails name 3 5 = false → f.updateFails name 4 5 = false →
        f.updateFails name 4 0 = true →
        (initializeSheetStructure f name st).1 = .error "update failed") := by
  refine ⟨?_, ?_, ?_, ?_⟩
  · intro h1 h2 h3
    simp only [initializeSheetStructure, tryFormat_eq, initializeTypeBreakdown_eq,
      applySheetFormatting_eq, valuesUpdate_ok, h1, h2, h3, sheetExists_modifyTab, hp]
    exact ⟨_, rfl⟩
  · intro h1
    simp only [initializeSheetStructure, valuesUpdate_err, h1]
  · intro h1 h2
    simp only [initializeSheetStructure, tryFormat_eq, valuesUpdate_ok, valuesUpdate_err,
      h1, h2, sheetExists_modifyTab, hp]
  · intro h1 h2 h3
    simp only [initializeSheetStructure, tryFormat_eq, valuesUpdate_ok, valuesUpdate_err,
      h1, h2, h3, sheetExists_modifyTab, hp]

/-- C7 counterexample: with only the breakdown write (range `F14:G24`,
start row 13) failing, `initializeSheetStructure` still resolves
successfully — the breakdown labels-and-formulas write is not fatal,
contrary to the claim. -/
theorem C7_counterexample_breakdown_write_not_fatal :
    (initializeSheetStructure
        ⟨fun _ r _ => decide (r = 13), fun _ _ _ => false, false⟩ "Feb 2026"
        ⟨⟨[⟨"Feb 2026", []⟩]⟩, 0⟩).1 = .ok () := by
  with_unfolding_all rfl

/-- C7 witness: the amended theorem applied at a fault-free backend and a
one-tab state. -/
theorem C7_witness :
    ∃ st', initializeSheetStructure noFaults "Feb 2026" ⟨⟨[⟨"Feb 2026", []⟩]⟩, 0⟩
      = (.ok (), st') :=
  (C7_only_three_writes_fatal noFaults "Feb 2026" ⟨⟨[⟨"Feb 2026", []⟩]⟩, 0⟩ (by decide)).1
    rfl rfl rfl

theorem getCell_writeRowCells_ge_col (g : Grid) (r c : ℕ) (vs : List CellValue)
    (r' c' : ℕ) (h : c + vs.length ≤ c') :
    getCell (writeRowCells g r c vs) r' c' = getCell g r' c' := by
  induction vs generalizing g c with
  | nil => rfl
  | cons v vs ih =>
    unfold writeRowCells
    have hlen : (v :: vs).length = vs.length + 1 := by simp
    rw [hlen] at h
    rw [ih (setCell g r c v) (c + 1) (by omega),
      getCell_setCell_ne g r c v r' c' (Or.inr (by omega))]

theorem getCell_writeRect_ge_col (g : Grid) (r c : ℕ) (rows : List (List CellValue))
    (w : ℕ) (r' c' : ℕ) (hw : ∀ row ∈ rows, row.length ≤ w) (h : c + w ≤ c') :
    getCell (writeRect g r c rows) r' c' = getCell g r' c' := by
  induction rows generalizing g r with
  | nil => rfl
  | cons row rows ih =>
    unfold writeRect
    rw [ih (writeRowCells g r c row) (r + 1) (fun q hq => hw q (by simp [hq])),
      getCell_writeRowCells_ge_col g r c row r' c' (by
        have := hw row (by simp)
        omega)]

theorem breakdownRows_length : breakdownRows.length = 11 := by decide

theorem breakdownRows_widths : ∀ row ∈ breakdownRows, row.length ≤ 2 := by decide

theorem initStructureWrites_outside (t : ℚ) (g : Grid) (r c : ℕ)
    (h : ¬ inInitRegion r c) :
    getCell (initStructureWrites t g) r c = getCell g r c := by
  unfold initStructureWrites
  have hw4 : getCell (writeRect (writeRect (writeRect (writeRect g 3 5 summaryHeaderRow)
      4 5 (summaryValuesRow t)) 4 0 expenseHeaderRow) 13 5 breakdownRows) r c
      = getCell (writeRect (writeRect (writeRect g 3 5 summaryHeaderRow)
        4 5 (summaryValuesRow t)) 4 0 expenseHeaderRow) r c := by
    by_cases hr : 13 ≤ r ∧ r ≤ 23
    · have hc : c ≠ 5 ∧ c ≠ 6 := by
        by_contra hcon
        exact h (Or.inr (Or.inr (Or.inr ⟨hr.1, hr.2, by omega⟩)))
      by_cases hc5 : c < 5
      · exact getCell_writeRect_lt_col _ _ _ _ _ _ hc5
      · exact getCell_writeRect_ge_col _ _ _ _ 2 _ _ breakdownRows_widths (by omega)
    · refine getCell_writeRect_ne_rows _ _ _ _ _ _ ?_
      rw [breakdownRows_length]
      omega
  rw [hw4]
  have hw3 : getCell (writeRect (writeRect (writeRect g 3 5 summaryHeaderRow)
      4 5 (summaryValuesRow t)) 4 0 expenseHeaderRow) r c
      = getCell (writeRect (writeRect g 3 5 summaryHeaderRow) 4 5 (summaryValuesRow t)) r c := by
    by_cases hr : r = 4
    · have hc : ¬ c ≤ 3 := fun hc3 => h (Or.inr (Or.inr (Or.inl ⟨hr, hc3⟩)))
      exact getCell_writeRect_ge_col _ _ _ _ 4 _ _ (by decide) (by omega)
    · exact getCell_writeRect_ne_rows _ _ _ _ _ _ (by simp [expenseHeaderRow]; omega)
  rw [hw3]
  have hw2 : getCell (writeRect (writeRect g 3 5 summaryHeaderRow) 4 5 (summaryValuesRow t)) r c
      = getCell (writeRect g 3 5 summaryHeaderRow) r c := by
    by_cases hr : r = 4
    · have hc : ¬ (5 ≤ c ∧ c ≤ 7) := fun hc57 => h (Or.inr (Or.inl ⟨hr, hc57.1, hc57.2⟩))
      by_cases hc5 : c < 5
      · exact getCell_writeRect_lt_col _ _ _ _ _ _ hc5
      · refine getCell_writeRect_ge_col _ _ _ _ 3 _ _ ?_ (by omega)
        unfold summaryValuesRow
        intro row hrow
        simp at hrow
        simp [hrow]
    · exact getCell_writeRect_ne_rows _ _ _ _ _ _ (by simp [summaryValuesRow]; omega)
  rw [hw2]
  by_cases hr : r = 3
  · have hc : ¬ (5 ≤ c ∧ c ≤ 7) := fun hc57 => h (Or.inl ⟨hr, hc57.1, hc57.2⟩)
    by_cases hc5 : c < 5
    · exact getCell_writeRect_lt_col _ _ _ _ _ _ hc5
    · exact getCell_writeRect_ge_col _ _ _ _ 3 _ _ (by decide) (by omega)
  · exact getCell_writeRect_ne_rows _ _ _ _ _ _ (by simp [summaryHeaderRow]; omega)

theorem initStructureWrites_F5 (t : ℚ) (g : Grid) :
    getCell (initStructureWrites t g) 4 5 = CellValue.num t := by
  unfold initStructureWrites
  rw [getCell_writeRect_ne_rows _ _ _ _ _ _ (by rw [breakdownRows_length]; omega)]
  rw [getCell_writeRect_ge_col _ _ _ _ 4 _ _ (by decide) (by omega)]
  exact getCell_writeRect_single_head _ _ _ _ _

theorem dropTrailingEmptyCells_eq_nil (l : List CellValue)
    (h : ∀ x ∈ l, x = CellValue.empty) :
    dropTrailingEmptyCells l = [] := by
  unfold dropTrailingEmptyCells
  rw [show l.reverse.dropWhile (fun v => v == CellValue.empty) = [] from
    List.dropWhile_eq_nil_iff.mpr (fun x hx => by
      rw [h x (List.mem_reverse.mp hx)]
      rfl)]
  rfl

theorem dropTrailingEmptyRows_eq_nil (rows : Grid) (h : ∀ r ∈ rows, r = []) :
    dropTrailingEmptyRows rows = [] := by
  unfold dropTrailingEmptyRows
  rw [show rows.reverse.dropWhile (fun r => r.isEmpty) = [] from
    List.dropWhile_eq_nil_iff.mpr (fun x hx => by
      rw [h x (List.mem_reverse.mp hx)]
      rfl)]
  rfl

theorem sliceRows_eq_nil (g : Grid) (r0 c0 c1 : ℕ)
    (h : ∀ r c, r0 ≤ r → c0 ≤ c → c ≤ c1 → getCell g r c = CellValue.empty) :
    sliceRows g r0 c0 c1 = [] := by
  unfold sliceRows
  apply dropTrailingEmptyRows_eq_nil
  intro row hrow
  rw [List.mem_map] at hrow
  obtain ⟨row0, hrow0, hmap⟩ := hrow
  rw [List.mem_iff_getElem] at hrow0
  obtain ⟨i, hi, hgi⟩ := hrow0
  rw [← hmap]
  apply dropTrailingEmptyCells_eq_nil
  intro x hx
  rw [List.mem_iff_getElem] at hx
  obtain ⟨j, hj, hgj⟩ := hx
  have hj2 : j < c1 + 1 - c0 := by
    have := hj
    simp only [List.length_take, List.length_drop] at this
    omega
  have hj3 : j < (row0.drop c0).length := by
    have := hj
    simp only [List.length_take, List.length_drop] at this ⊢
    omega
  rw [← hgj, List.getElem_take, List.getElem_drop]
  have hcell := h (r0 + i) (c0 + j) (by omega) (by omega) (by omega)
  unfold getCell at hcell
  rw [List.getD_eq_getElem?_getD, List.getD_eq_getElem?_getD] at hcell
  have hglen : r0 + i < g.length := by
    have h2 := hi
    simp only [List.length_drop] at h2
    omega
  have hgd : g[r0 + i]? = some row0 := by
    rw [List.getElem?_eq_getElem hglen]
    exact congrArg some ((List.getElem_drop g).symm.trans hgi)
  rw [hgd] at hcell
  simp only [Option.getD_some] at hcell
  by_cases hb : c0 + j < row0.length
  · rw [List.getElem?_eq_getElem hb] at hcell
    simp only [Option.getD_some] at hcell
    exact hcell
  · exfalso
    have := hj3
    simp only [List.length_drop] at this
    omega

theorem getCell_nil (r c : ℕ) : getCell ([] : Grid) r c = CellValue.empty := rfl

theorem findTab_append_self (sp : Spreadsheet) (n : String) (g : Grid)
    (h : sheetExists sp n = false) :
    findTab (Spreadsheet.mk (sp.tabs ++ [SheetTab.mk n g])) n = some (SheetTab.mk n g) := by
  unfold findTab
  show (sp.tabs ++ [SheetTab.mk n g]).find? (fun t => t.title == n) = some (SheetTab.mk n g)
  rw [List.find?_append]
  rw [show sp.tabs.find? (fun t => t.title == n) = none from by
    rw [List.find?_eq_none]
    intro t ht hbeq
    have hex : sheetExists sp n = true := by
      unfold sheetExists
      rw [List.any_eq_true]
      exact ⟨t, ht, hbeq⟩
    rw [hex] at h
    cases h]
  simp [List.find?_cons]

theorem reset_noFaults_absent (st : ServiceState) (name : String) (T : ℚ)
    (hp : sheetExists st.sheet name = false) :
    resetSheetToInitialState noFaults name T st
      = (⟨true, "Sheet " ++ name ++ " created and initialized with target expense."⟩,
        { st with
          sheet := modifyTab ⟨st.sheet.tabs ++ [⟨name, []⟩]⟩ name (initStructureWrites T) }) := by
  simp only [resetSheetToInitialState, hp, ensureMonthlySheetExists_noFaults_absent]
  rfl

theorem reset_noFaults_present (st : ServiceState) (name : String) (T : ℚ)
    (hp : sheetExists st.sheet name = true) :
    resetSheetToInitialState noFaults name T st
      = (⟨true, "Sheet " ++ name ++ " has been reset to initial state. All data cleared."⟩,
        { st with
          sheet := modifyTab st.sheet name
            (fun g => initStructureWrites T (clearColsAZ g)) }) := by
  simp only [resetSheetToInitialState, hp, Bool.true_eq_false, if_false, if_true,
    valuesClearAZ, initializeSheetStructure_noFaults, sheetExists_modifyTab,
    modifyTab_modifyTab]

theorem initWrites_post (T : ℚ) (base : Grid)
    (hbase : ∀ r c, c ≤ 25 → getCell base r c = CellValue.empty) :
    sliceRows (initStructureWrites T base) 5 0 3 = []
    ∧ getCell (initStructureWrites T base) 4 5 = CellValue.num T
    ∧ (∀ r c, c ≤ 25 → ¬ inInitRegion r c →
        getCell (initStructureWrites T base) r c = CellValue.empty) := by
  refine ⟨?_, initStructureWrites_F5 T base, ?_⟩
  · apply sliceRows_eq_nil
    intro r c hr hc0 hc1
    have hreg : ¬ inInitRegion r c := by
      intro hcon
      rcases hcon with ⟨h1, _, _⟩ | ⟨h1, _, _⟩ | ⟨h1, _⟩ | ⟨h1, h2, h3⟩
      · omega
      · omega
      · omega
      · rcases h3 with h3 | h3 <;> omega
    rw [initStructureWrites_outside T base r c hreg]
    exact hbase r c (by omega)
  · intro r c hc hreg
    rw [initStructureWrites_outside T base r c hreg]
    exact hbase r c hc

theorem reset_post_of_cells (st' : ServiceState) (name : String) (T : ℚ) (base : Grid)
    (hfind : findTab st'.sheet name = some (SheetTab.mk name (initStructureWrites T base)))
    (hbase : ∀ r c, c ≤ 25 → getCell base r c = CellValue.empty) :
    (getExpensesFromSheet name st').1 = Except.ok []
    ∧ getSheetCell st'.sheet name 4 5 = CellValue.num T
    ∧ (∀ rr cc, cc ≤ 25 → ¬ inInitRegion rr cc →
        getSheetCell st'.sheet name rr cc = CellValue.empty)
    ∧ (∀ (m : Fin 12) (y : ℕ), getMonthlySheetName m y = name →
        (getAllExpenses m y st').1 = Except.ok []) := by
  obtain ⟨hslice, hF5, houtside⟩ := initWrites_post T base hbase
  have hexp : expensesOfTab st'.sheet name = [] := by
    simp only [expensesOfTab, hfind, hslice, List.map_nil]
  refine ⟨?_, ?_, ?_, ?_⟩
  · rw [getExpensesFromSheet_eq, hexp]
  · simp only [getSheetCell, hfind]
    exact hF5
  · intro rr cc hcc hreg
    simp only [getSheetCell, hfind]
    exact houtside rr cc hcc hreg
  · intro m y hm
    rw [getAllExpenses_eq, hm, hexp]

/-- C8, amended: a fault-free `resetSheetToInitialState(name, T)` reports
success, clears columns A through Z of the tab (creating the tab when
absent; cells outside columns A..Z are not cleared, see the
counterexample) and reinitializes the structure, so that a subsequent
`readExpenses`/`getAllExpenses` on that tab returns an empty collection,
the summary target literal at F5 equals `T`, and every cell of columns
A..Z outside the initialized structure regions is empty. -/
theorem C8_reset_clears_and_sets_target (st : ServiceState) (name : String) (T : ℚ)
    (r : ResetResult) (st' : ServiceState)
    (h : resetSheetToInitialState noFaults name T st = (r, st')) :
    r.success = true
    ∧ (getExpensesFromSheet name st').1 = Except.ok []
    ∧ getSheetCell st'.sheet name 4 5 = CellValue.num T
    ∧ (∀ rr cc, cc ≤ 25 → ¬ inInitRegion rr cc →
        getSheetCell st'.sheet name rr cc = CellValue.empty)
    ∧ (∀ (m : Fin 12) (y : ℕ), getMonthlySheetName m y = name →
        (getAllExpenses m y st').1 = Except.ok []) := by
  rcases hp : sheetExists st.sheet name with _ | _
  · rw [reset_noFaults_absent st name T hp] at h
    injection h with h1 h2
    subst h1
    subst h2
    refine ⟨rfl, ?_⟩
    apply reset_post_of_cells _ name T []
    · show findTab (modifyTab (Spreadsheet.mk (st.sheet.tabs ++ [SheetTab.mk name []])) name
        (initStructureWrites T)) name = _
      rw [findTab_modifyTab, findTab_append_self st.sheet name [] hp]
      rfl
    · intro rr cc _
      exact getCell_nil rr cc
  · rw [reset_noFaults_present st name T hp] at h
    injection h with h1 h2
    subst h1
    subst h2
    obtain ⟨tab, htab⟩ := findTab_isSome_of_exists st.sheet name hp
    have htitle : tab.title = name := by
      have hsome := List.find?_some htab
      exact beq_iff_eq.mp hsome
    refine ⟨rfl, ?_⟩
    apply reset_post_of_cells _ name T (clearColsAZ tab.cells)
    · show findTab (modifyTab st.sheet name (fun g => initStructureWrites T (clearColsAZ g)))
        name = _
      rw [findTab_modifyTab, htab]
      simp [htitle]
    · intro rr cc hcc
      exact getCell_clearColsAZ tab.cells rr cc (by omega)

/-- C8 counterexample: `values.clear` covers only `A:Z`, so a cell in
column AA survives a successful reset — the tab content is not entirely
cleared. -/
theorem C8_counterexample_column_AA_survives :
    (resetSheetToInitialState noFaults "Feb 2026" 150000
        ⟨⟨[⟨"Feb 2026", [List.replicate 26 CellValue.empty ++ [CellValue.str "x"]]⟩]⟩,
          0⟩).1.success = true
    ∧ getSheetCell (resetSheetToInitialState noFaults "Feb 2026" 150000
        ⟨⟨[⟨"Feb 2026", [List.replicate 26 CellValue.empty ++ [CellValue.str "x"]]⟩]⟩,
          0⟩).2.sheet "Feb 2026" 0 26 = CellValue.str "x" := by
  with_unfolding_all decide

/-- C8 witness: the amended theorem applied to a fault-free reset of an
empty spreadsheet. -/
theorem C8_witness :
    (resetSheetToInitialState noFaults "Feb 2026" 150000 ⟨⟨[]⟩, 0⟩).1.success = true
    ∧ (getExpensesFromSheet "Feb 2026"
        (resetSheetToInitialState noFaults "Feb 2026" 150000 ⟨⟨[]⟩, 0⟩).2).1 = Except.ok []
    ∧ getSheetCell (resetSheetToInitialState noFaults "Feb 2026" 150000 ⟨⟨[]⟩, 0⟩).2.sheet
        "Feb 2026" 4 5 = CellValue.num 150000 := by
  have h := C8_reset_clears_and_sets_target ⟨⟨[]⟩, 0⟩ "Feb 2026" 150000
    (resetSheetToInitialState noFaults "Feb 2026" 150000 ⟨⟨[]⟩, 0⟩).1
    (resetSheetToInitialState noFaults "Feb 2026" 150000 ⟨⟨[]⟩, 0⟩).2 rfl
  exact ⟨h.1, h.2.1, h.2.2.1⟩

end ExpenseBot
